import Mathlib

/-!
Verification of the BTC short-strangle daily observer
(`15StrikesFarOTMPicker.py`) against its natural-language specification.

The script's decision core is embedded shallowly:
* money amounts (premiums, strikes, FX rates) are `ℚ` (the Python code uses
  floats; all claims under scrutiny are about exact control flow and
  arithmetic relations, not float rounding),
* minute-candle timestamps are `ℕ` (epoch seconds; the Python code converts
  them with `int(ts)` and skips falsy values, modelled as the value `0`),
* every fallible network fetch is an `Option` input: `none` models the
  Python helper returning a failure record (`success = False` / `None`),
* the Excel tracker row and the log stream are modelled by the fields of
  the result records (`manual_review` records that a
  "verify manually" warning was emitted).
-/

/-! ### Configuration constants (CONFIGURATION block of the script) -/

def POSITION_SIZE_LOTS : ℕ := 1000

def POSITION_SIZE_BTC : ℚ := (POSITION_SIZE_LOTS : ℚ) / 1000

def SL_COMBINED_MULTIPLIER : ℚ := 5 / 2

def HARD_MAX_LOSS_INR : ℚ := 10000

def EARLY_EXIT_PREMIUM : ℚ := 5

def EXIT_HOUR : ℕ := 17

def EXIT_MINUTE : ℕ := 15

def MAX_SPREAD_PCT : ℚ := 30

def MIN_PREMIUM_USD : ℚ := 5

/-- Result of a successful `get_current_premium` call: best bid and ask of
one option leg.  A failed call is modelled as `none` at the use sites. -/
structure Quote where
  bid : ℚ
  ask : ℚ
deriving DecidableEq

/-! ### Python `round(x, 2)` (banker's rounding to two decimals) -/

/-- Round a rational to the nearest integer, halves to the even integer:
the semantics of Python 3 `round` on an exact value. -/
def pyRoundInt (s : ℚ) : ℤ :=
  if s - ⌊s⌋ < 1 / 2 then ⌊s⌋
  else if 1 / 2 < s - ⌊s⌋ then ⌊s⌋ + 1
  else if Even ⌊s⌋ then ⌊s⌋ else ⌊s⌋ + 1

/-- Python `round(q, 2)`: round to two decimal places, halves to even. -/
def pyRound2 (q : ℚ) : ℚ := ((pyRoundInt (100 * q) : ℤ) : ℚ) / 100

/-! ### `get_intraday_worst_combined` (FIX 1 + FIX 2 block)

`fetch_candles` inside the Python function returns `None` on a non-200
HTTP status and on an empty candle list, and otherwise a dict
`{int(ts): float(close)}` built left to right over the candles, skipping
candles with a falsy timestamp.  The dict is modelled as an association
list with in-place overwrite (`upsert`), preserving Python dict insertion
order and last-write-wins semantics. -/

/-- Python dict assignment `m[t] = v` on an association list: overwrite in
place if the key is present, append otherwise. -/
def upsert (m : List (ℕ × ℚ)) (t : ℕ) (v : ℚ) : List (ℕ × ℚ) :=
  match m with
  | [] => [(t, v)]
  | (t', v') :: rest => if t' = t then (t, v) :: rest else (t', v') :: upsert rest t v

/-- The dict-building loop of `fetch_candles`:
`for c in candles: if ts: result[int(ts)] = close`. -/
def buildCandleDict (cs : List (ℕ × ℚ)) : List (ℕ × ℚ) :=
  cs.foldl (fun m c => if c.1 ≠ 0 then upsert m c.1 c.2 else m) []

/-- Dict lookup `m[t]`. -/
def lookupTs (m : List (ℕ × ℚ)) (t : ℕ) : Option ℚ :=
  (m.find? (fun c => c.1 == t)).map Prod.snd

/-- Python `set(m.keys())`, as a duplicate-free list. -/
def dictKeys (m : List (ℕ × ℚ)) : List ℕ := (m.map Prod.fst).dedup

/-- `sorted(set(call_candles.keys()) & set(put_candles.keys()))`. -/
def commonTs (cm pm : List (ℕ × ℚ)) : List ℕ :=
  List.insertionSort (· ≤ ·) ((dictKeys cm).filter (fun t => decide (t ∈ dictKeys pm)))

/-- The combined close `call_candles[ts] + put_candles[ts]` at a shared
minute. -/
def combAt (cm pm : List (ℕ × ℚ)) (t : ℕ) : ℚ :=
  (lookupTs cm t).getD 0 + (lookupTs pm t).getD 0

/-- One iteration of the peak scan:
`if combined > worst_combined: worst_combined, worst_ts = combined, ts`. -/
def worstStep (cm pm : List (ℕ × ℚ)) (acc : ℚ × Option ℕ) (t : ℕ) : ℚ × Option ℕ :=
  let combined := (lookupTs cm t).getD 0 + (lookupTs pm t).getD 0
  if acc.1 < combined then (combined, some t) else acc

/-- The record returned by `get_intraday_worst_combined` on success.
`worst_ts = none` models the Python `worst_ts is None` case, in which the
reported peak time string is `'?'`. -/
structure IntradayRes where
  worst_combined : ℚ
  worst_ts : Option ℕ
  candle_count : ℕ
  sl_breached : Bool
  hard_cap_breached : Bool
deriving DecidableEq

/-- `fetch_candles(symbol)` up to the dict: `none` for an HTTP error or an
empty candle list, otherwise the built dict. -/
def fetchCandleDict (fetch : Option (List (ℕ × ℚ))) : Option (List (ℕ × ℚ)) :=
  match fetch with
  | none => none
  | some cs => if cs.isEmpty then none else some (buildCandleDict cs)

/-- `get_intraday_worst_combined`: `none` models every early `return None`
(fetch failure for a leg, empty dict, or no overlapping timestamps). -/
def get_intraday_worst_combined (callFetch putFetch : Option (List (ℕ × ℚ)))
    (sl_level hard_cap_level : ℚ) : Option IntradayRes :=
  match fetchCandleDict callFetch, fetchCandleDict putFetch with
  | some cm, some pm =>
    if cm.isEmpty || pm.isEmpty then none
    else
      let common := commonTs cm pm
      if common.isEmpty then none
      else
        let w := common.foldl (worstStep cm pm) (0, none)
        some { worst_combined := w.1
               worst_ts := w.2
               candle_count := common.length
               sl_breached := decide (sl_level ≤ w.1)
               hard_cap_breached := decide (hard_cap_level ≤ w.1) }
  | _, _ => none

/-! ### EXIT phase evaluator (PHASE == "EXIT" block)

The evaluation is a pure function of the entry snapshot and of the
outcomes of the network fetches it performs.  Fetches are grouped into
the tier inputs (candles, safety-fallback live quotes, safety-fallback
spot) consumed before the STEP 2 guard, and the STEP 2 inputs (two
live-quote attempts per leg and the settlement spot of the FIX 3 zero
guard), consumed only when no breach was recorded. -/

/-- The fields of `active_trade.json` the EXIT phase decision logic reads. -/
structure EntrySnapshot where
  date : String
  entry_time : String
  call_symbol : String
  put_symbol : String
  entry_ce : ℚ
  entry_pe : ℚ
  entry_combined : ℚ
  call_strike : ℚ
  put_strike : ℚ
  usd_to_inr : Option ℚ
deriving DecidableEq

/-- The distinct `exit_reason` strings the EXIT phase can record. -/
inductive ExitReason
  | slIntraday
  | hardCapIntraday
  | slLiveFallback
  | slSpotEstimate
  | expiredOTMWin
  | earlyExitDecay
  | timeExit515
deriving DecidableEq

/-- The exit decision as recorded in the EXIT summary and tracker row.
`manual_review` is true exactly when the code printed a
"verify manually / verify if intraday SL should have triggered" warning
for the recorded values. -/
structure ExitEval where
  sl_breached : Bool
  hard_cap_breached : Bool
  exit_ce : ℚ
  exit_pe : ℚ
  exit_combined : ℚ
  exit_time : Option ℕ
  exit_reason : ExitReason
  manual_review : Bool
deriving DecidableEq

/-- Fetch outcomes consumed by STEP 1 and the FIX 4 safety fallback. -/
structure TierInputs where
  callCandles : Option (List (ℕ × ℚ))
  putCandles : Option (List (ℕ × ℚ))
  liveCall : Option Quote
  livePut : Option Quote
  fallbackSpot : Option ℚ
  nowMinute : ℕ
deriving DecidableEq

/-- Fetch outcomes consumed by STEP 2 (first attempt, the 10-second retry,
and the FIX 3 settlement-spot fetch). -/
structure Step2Inputs where
  call1 : Option Quote
  put1 : Option Quote
  call2 : Option Quote
  put2 : Option Quote
  settlementSpot : Option ℚ
deriving DecidableEq

/-- `sl_level = entry_combined * SL_COMBINED_MULTIPLIER`. -/
def sl_level_of (e : EntrySnapshot) : ℚ := e.entry_combined * SL_COMBINED_MULTIPLIER

/-- `hard_cap_level = HARD_MAX_LOSS_INR / saved_usd_inr / POSITION_SIZE_BTC
+ entry_combined`, where `saved_usd_inr = entry.get('usd_to_inr', usd_inr)`. -/
def hard_cap_level_of (e : EntrySnapshot) (usd_inr : ℚ) : ℚ :=
  HARD_MAX_LOSS_INR / (e.usd_to_inr.getD usd_inr) / POSITION_SIZE_BTC + e.entry_combined

/-- `ratio = entry['entry_ce'] / entry_combined if entry_combined else 0.5`. -/
def ceShare (e : EntrySnapshot) : ℚ :=
  if e.entry_combined ≠ 0 then e.entry_ce / e.entry_combined else 1 / 2

/-- Outcome of STEP 1 plus the FIX 4 safety fallback: either a breach was
recorded (STEP 2 is skipped) or evaluation proceeds to STEP 2, possibly
with a pending manual-review warning already printed. -/
inductive Stage1Out
  | breachFound (r : ExitEval)
  | proceed (manualWarn : Bool)
deriving DecidableEq

/-- STEP 1 (intraday candle check) together with the FIX 4 safety fallback
(live quotes, then settlement-spot intrinsic), exactly as in the
`if intraday: ... else: ...` block of the EXIT phase. -/
def stage1 (e : EntrySnapshot) (usd_inr : ℚ) (t : TierInputs) : Stage1Out :=
  let sl_level := sl_level_of e
  let hard_cap_level := hard_cap_level_of e usd_inr
  match get_intraday_worst_combined t.callCandles t.putCandles sl_level hard_cap_level with
  | some r =>
    if r.sl_breached then
      .breachFound
        { sl_breached := true
          hard_cap_breached := false
          exit_ce := pyRound2 (sl_level * ceShare e)
          exit_pe := pyRound2 (sl_level * (1 - ceShare e))
          exit_combined := sl_level
          exit_time := r.worst_ts
          exit_reason := .slIntraday
          manual_review := false }
    else if r.hard_cap_breached then
      .breachFound
        { sl_breached := false
          hard_cap_breached := true
          exit_ce := pyRound2 (hard_cap_level * ceShare e)
          exit_pe := pyRound2 (hard_cap_level * (1 - ceShare e))
          exit_combined := hard_cap_level
          exit_time := r.worst_ts
          exit_reason := .hardCapIntraday
          manual_review := false }
    else .proceed false
  | none =>
    match t.liveCall, t.livePut with
    | some cq, some pq =>
      let spot_combined := cq.ask + pq.ask
      if sl_level ≤ spot_combined then
        .breachFound
          { sl_breached := true
            hard_cap_breached := false
            exit_ce := cq.ask
            exit_pe := pq.ask
            exit_combined := spot_combined
            exit_time := some t.nowMinute
            exit_reason := .slLiveFallback
            manual_review := false }
      else .proceed false
    | _, _ =>
      match t.fallbackSpot with
      | some spot =>
        let pe_intrinsic := max 0 (e.put_strike - spot)
        let ce_intrinsic := max 0 (spot - e.call_strike)
        let est_combined := pe_intrinsic + ce_intrinsic
        if sl_level ≤ est_combined then
          .breachFound
            { sl_breached := true
              hard_cap_breached := false
              exit_ce := ce_intrinsic
              exit_pe := pe_intrinsic
              exit_combined := est_combined
              exit_time := some t.nowMinute
              exit_reason := .slSpotEstimate
              manual_review := true }
        else .proceed (decide (0 < pe_intrinsic) || decide (0 < ce_intrinsic))
      | none => .proceed true

/-- STEP 2: live 5:15 PM price fetch (with one retry of both legs), a
failed leg defaulting to `0.0`, followed by the FIX 3 zero-exit guard. -/
def step2Run (e : EntrySnapshot) (t : TierInputs) (s : Step2Inputs)
    (warn : Bool) : ExitEval :=
  let firstOk := s.call1.isSome && s.put1.isSome
  let cd := if firstOk then s.call1 else s.call2
  let pd := if firstOk then s.put1 else s.put2
  let exit_ce := (cd.map Quote.ask).getD 0
  let exit_pe := (pd.map Quote.ask).getD 0
  let exit_combined := exit_ce + exit_pe
  if exit_combined = 0 then
    match s.settlementSpot with
    | some spot =>
      let pe2 := max 0 (e.put_strike - spot)
      let ce2 := max 0 (spot - e.call_strike)
      let comb2 := ce2 + pe2
      if comb2 = 0 then
        { sl_breached := false
          hard_cap_breached := false
          exit_ce := ce2
          exit_pe := pe2
          exit_combined := comb2
          exit_time := some t.nowMinute
          exit_reason := .expiredOTMWin
          manual_review := warn }
      else
        { sl_breached := false
          hard_cap_breached := false
          exit_ce := ce2
          exit_pe := pe2
          exit_combined := comb2
          exit_time := some t.nowMinute
          exit_reason := if comb2 < EARLY_EXIT_PREMIUM then .earlyExitDecay else .timeExit515
          manual_review := true }
    | none =>
      { sl_breached := false
        hard_cap_breached := false
        exit_ce := exit_ce
        exit_pe := exit_pe
        exit_combined := exit_combined
        exit_time := some t.nowMinute
        exit_reason := if exit_combined < EARLY_EXIT_PREMIUM then .earlyExitDecay else .timeExit515
        manual_review := warn }
  else
    { sl_breached := false
      hard_cap_breached := false
      exit_ce := exit_ce
      exit_pe := exit_pe
      exit_combined := exit_combined
      exit_time := some t.nowMinute
      exit_reason := if exit_combined < EARLY_EXIT_PREMIUM then .earlyExitDecay else .timeExit515
      manual_review := warn }

/-- The whole EXIT evaluation: STEP 1 with its fallbacks, then STEP 2
only when no breach was recorded. -/
def evaluate_exit (e : EntrySnapshot) (usd_inr : ℚ) (t : TierInputs)
    (s : Step2Inputs) : ExitEval :=
  match stage1 e usd_inr t with
  | .breachFound r => r
  | .proceed warn => step2Run e t s warn

/-- Observable outcome of one EXIT-phase run. -/
inductive ExitPhaseOutcome
  | noActiveFile
  | staleDiscarded
  | completed (r : ExitEval)
deriving DecidableEq

/-- The EXIT phase wrapper: missing `active_trade.json`, the stale-file
check (`entry_date != today_str`: delete the file, write nothing), or a
completed evaluation (tracker row written, file deleted). -/
def exit_phase (fileExists : Bool) (e : EntrySnapshot) (today : String)
    (usd_inr : ℚ) (t : TierInputs) (s : Step2Inputs) : ExitPhaseOutcome :=
  if !fileExists then .noActiveFile
  else if e.date ≠ today then .staleDiscarded
  else .completed (evaluate_exit e usd_inr t s)

/-- Whether a tracker row is appended, and with which exit record. -/
def trackerRow : ExitPhaseOutcome → Option ExitEval
  | .completed r => some r
  | _ => none

/-- Whether `active_trade.json` is deleted by the run. -/
def activeFileDeleted : ExitPhaseOutcome → Bool
  | .noActiveFile => false
  | .staleDiscarded => true
  | .completed _ => true

/-! ### ENTRY phase strike scanner (`run_strike_scan`)

The option chain is the data the ENTRY phase has already assembled when
the scan starts: the sorted strike list, the ATM index, and the
per-strike call/put records (`calls_by_str` / `puts_by_str`; a strike may
be absent on either side, and quote fields default to `0`, matching
`float(cq.get('best_bid', 0) or 0)`). -/

/-- Normalized per-strike quote inside the chain snapshot. -/
structure LegQuote where
  best_bid : ℚ
  best_ask : ℚ
deriving DecidableEq

/-- The chain snapshot consumed by `run_strike_scan`. -/
structure OptionChain where
  all_strikes : List ℚ
  atm_index : ℕ
  calls_by_str : ℚ → Option LegQuote
  puts_by_str : ℚ → Option LegQuote

/-- `max_ce = len(all_strikes) - atm_index - 1`. -/
def maxCe (ch : OptionChain) : ℕ := ch.all_strikes.length - ch.atm_index - 1

/-- `max_pe = atm_index`. -/
def maxPe (ch : OptionChain) : ℕ := ch.atm_index

/-- `range(range_start, min(range_end + 1, limit + 1))`. -/
def candRange (range_start range_end limit : ℕ) : List ℕ :=
  List.range' range_start (min (range_end + 1) (limit + 1) - range_start)

/-- The nested `for ce_d ... for pe_d ...` loops, as the list of candidate
offset pairs in scan order. -/
def candList (ch : OptionChain) (range_start range_end : ℕ) : List (ℕ × ℕ) :=
  (candRange range_start range_end (maxCe ch)).flatMap fun ce_d =>
    (candRange range_start range_end (maxPe ch)).map fun pe_d => (ce_d, pe_d)

def callStrikeAt (ch : OptionChain) (ce_d : ℕ) : ℚ :=
  ch.all_strikes.getD (ch.atm_index + ce_d) 0

def putStrikeAt (ch : OptionChain) (pe_d : ℕ) : ℚ :=
  ch.all_strikes.getD (ch.atm_index - pe_d) 0

/-- `float(q.get('best_bid', 0) or 0)` for a possibly missing record. -/
def legBid (q : Option LegQuote) : ℚ := (q.map LegQuote.best_bid).getD 0

def legAsk (q : Option LegQuote) : ℚ := (q.map LegQuote.best_ask).getD 0

def cbOf (ch : OptionChain) (c : ℕ × ℕ) : ℚ := legBid (ch.calls_by_str (callStrikeAt ch c.1))

def caOf (ch : OptionChain) (c : ℕ × ℕ) : ℚ := legAsk (ch.calls_by_str (callStrikeAt ch c.1))

def pbOf (ch : OptionChain) (c : ℕ × ℕ) : ℚ := legBid (ch.puts_by_str (putStrikeAt ch c.2))

def paOf (ch : OptionChain) (c : ℕ × ℕ) : ℚ := legAsk (ch.puts_by_str (putStrikeAt ch c.2))

/-- `((ask - bid) / ask * 100) if ask > 0 else 100`. -/
def spread_pct (ask bid : ℚ) : ℚ := if 0 < ask then (ask - bid) / ask * 100 else 100

/-- Premium imbalance `abs(cb - pb)` of a candidate pair. -/
def candImb (ch : OptionChain) (c : ℕ × ℕ) : ℚ := |cbOf ch c - pbOf ch c|

/-- A candidate survives the liquidity floor and the spread filter. -/
def candPass (ch : OptionChain) (c : ℕ × ℕ) : Bool :=
  decide (MIN_PREMIUM_USD ≤ cbOf ch c) && decide (MIN_PREMIUM_USD ≤ pbOf ch c) &&
  !decide (MAX_SPREAD_PCT < spread_pct (caOf ch c) (cbOf ch c)) &&
  !decide (MAX_SPREAD_PCT < spread_pct (paOf ch c) (pbOf ch c))

/-- The `best` record assembled when a candidate becomes best-so-far. -/
structure BestCombo where
  call_strike : ℚ
  put_strike : ℚ
  ce_dist : ℕ
  pe_dist : ℕ
  call_bid : ℚ
  call_ask : ℚ
  put_bid : ℚ
  put_ask : ℚ
  combined_premium : ℚ
deriving DecidableEq

def mkCombo (ch : OptionChain) (c : ℕ × ℕ) : BestCombo :=
  { call_strike := callStrikeAt ch c.1
    put_strike := putStrikeAt ch c.2
    ce_dist := c.1
    pe_dist := c.2
    call_bid := cbOf ch c
    call_ask := caOf ch c
    put_bid := pbOf ch c
    put_ask := paOf ch c
    combined_premium := cbOf ch c + pbOf ch c }

/-- One iteration of the scan loop body: skip on the liquidity floor,
then `if not wide and imb < bi: best = {...}` (the running `bi` always
equals the imbalance of the stored best pair). -/
def accImbLt (imb : ℚ) : Option BestCombo → Bool
  | none => true
  | some b => decide (imb < |b.call_bid - b.put_bid|)

def scanStep (ch : OptionChain) (acc : Option BestCombo) (c : ℕ × ℕ) : Option BestCombo :=
  if cbOf ch c < MIN_PREMIUM_USD ∨ pbOf ch c < MIN_PREMIUM_USD then acc
  else
    let wide := decide (MAX_SPREAD_PCT < spread_pct (caOf ch c) (cbOf ch c)) ||
      decide (MAX_SPREAD_PCT < spread_pct (paOf ch c) (pbOf ch c))
    if !wide && accImbLt (candImb ch c) acc then some (mkCombo ch c) else acc

/-- `run_strike_scan(range_start, range_end, ...)`. -/
def run_strike_scan (ch : OptionChain) (range_start range_end : ℕ) : Option BestCombo :=
  (candList ch range_start range_end).foldl (scanStep ch) none

/-- The two-tier call sequence of the ENTRY phase: primary 13-15 scan,
then the 10-12 fallback scan only when the primary found nothing. -/
def select_strikes (ch : OptionChain) : Option BestCombo :=
  match run_strike_scan ch 13 15 with
  | some b => some b
  | none => run_strike_scan ch 10 12

/-- The candidate-level view of `accImbLt`: the running `bi` bound. -/
def candAccLt (ch : OptionChain) (imb : ℚ) : Option (ℕ × ℕ) → Bool
  | none => true
  | some a => decide (imb < candImb ch a)

/-- The scan loop body, tracking only the best candidate's offsets. -/
def candFoldStep (ch : OptionChain) (acc : Option (ℕ × ℕ)) (c : ℕ × ℕ) : Option (ℕ × ℕ) :=
  if candPass ch c && candAccLt ch (candImb ch c) acc then some c else acc

/-- The scan over a candidate list, at the offset level. -/
def candFold (ch : OptionChain) (l : List (ℕ × ℕ)) : Option (ℕ × ℕ) :=
  l.foldl (candFoldStep ch) none

/-- `m` is the first candidate of `l` attaining the minimal imbalance
among the candidates passing the liquidity and spread filters: every
passing candidate scanned before it is strictly worse, every passing
candidate after it no better. -/
def IsFirstScanMin (ch : OptionChain) (l : List (ℕ × ℕ)) (m : ℕ × ℕ) : Prop :=
  ∃ pre post, l = pre ++ m :: post ∧ candPass ch m = true ∧
    (∀ c ∈ pre, candPass ch c = true → candImb ch m < candImb ch c) ∧
    (∀ c ∈ post, candPass ch c = true → candImb ch m ≤ candImb ch c)

/-- A concrete 21-strike chain whose ATM index is 10: the primary 13-15
scan has no candidates, the 10-12 fallback has exactly the pair
(+10, -10) quoted 10/12 and 11/13. -/
def sampleChain : OptionChain :=
  { all_strikes := [100, 101, 102, 103, 104, 105, 106, 107, 108, 109, 110, 111, 112,
      113, 114, 115, 116, 117, 118, 119, 120]
    atm_index := 10
    calls_by_str := fun s => if s = 120 then some { best_bid := 10, best_ask := 12 } else none
    puts_by_str := fun s => if s = 100 then some { best_bid := 11, best_ask := 13 } else none }

/-! ### `monitor_live` polling loop -/

/-- Everything one iteration of the `while True` loop observes: the wall
clock and the outcome of each network call the iteration may make. -/
structure TickInput where
  hour : ℕ
  minute : ℕ
  callQuote : Option Quote
  putQuote : Option Quote
  posFetch : Option (Bool × Bool)
  timeExitCall : Option Quote
  timeExitPut : Option Quote
deriving DecidableEq

/-- The five terminal transitions of the monitoring loop. -/
inductive MonitorReason
  | timeExit
  | manualExit
  | softSL
  | hardCap
  | earlyExit
deriving DecidableEq

/-- The `result` record the loop fills on a terminal transition. -/
structure MonitorExit where
  exit_ce : ℚ
  exit_pe : ℚ
  exit_combined : ℚ
  reason : MonitorReason
deriving DecidableEq

/-- Outcome of one loop iteration: break with a filled result, or sleep
and poll again. -/
inductive StepResult
  | exitNow (e : MonitorExit)
  | retry
deriving DecidableEq

/-- `now.hour > EXIT_HOUR or (now.hour == EXIT_HOUR and now.minute >= EXIT_MINUTE)`. -/
def timeBoundaryReached (h m : ℕ) : Prop :=
  EXIT_HOUR < h ∨ (h = EXIT_HOUR ∧ EXIT_MINUTE ≤ m)

instance (h m : ℕ) : Decidable (timeBoundaryReached h m) := by
  unfold timeBoundaryReached
  infer_instance

/-- One iteration of `monitor_live`'s loop body, in source order:
time exit, quote fetch (failure → retry), manual-exit detection, soft SL,
hard cap, early exit, else sleep. -/
def monitor_step (entry_combined usd_inr : ℚ) (t : TickInput) : StepResult :=
  if timeBoundaryReached t.hour t.minute then
    let ce := (t.timeExitCall.map Quote.ask).getD 0
    let pe := (t.timeExitPut.map Quote.ask).getD 0
    .exitNow { exit_ce := ce, exit_pe := pe, exit_combined := ce + pe, reason := .timeExit }
  else
    match t.callQuote, t.putQuote with
    | some cd, some pd =>
      let bothClosed := match t.posFetch with
        | some (hasCall, hasPut) => !hasCall && !hasPut
        | none => false
      if bothClosed then
        .exitNow { exit_ce := cd.ask, exit_pe := pd.ask,
                   exit_combined := cd.ask + pd.ask, reason := .manualExit }
      else
        let cur := cd.ask + pd.ask
        if entry_combined * SL_COMBINED_MULTIPLIER ≤ cur then
          .exitNow { exit_ce := cd.ask, exit_pe := pd.ask,
                     exit_combined := cur, reason := .softSL }
        else if HARD_MAX_LOSS_INR ≤ (cur - entry_combined) * POSITION_SIZE_BTC * usd_inr then
          .exitNow { exit_ce := cd.ask, exit_pe := pd.ask,
                     exit_combined := cur, reason := .hardCap }
        else if cur < EARLY_EXIT_PREMIUM then
          .exitNow { exit_ce := cd.ask, exit_pe := pd.ask,
                     exit_combined := cur, reason := .earlyExit }
        else .retry
    | _, _ => .retry

/-- The loop run over a finite trace of tick observations: the first
terminal transition wins and nothing runs after it. -/
def monitor_run (entry_combined usd_inr : ℚ) : List TickInput → Option MonitorExit
  | [] => none
  | t :: rest =>
    match monitor_step entry_combined usd_inr t with
    | .exitNow e => some e
    | .retry => monitor_run entry_combined usd_inr rest

/-! ### Sample concrete inputs used by the witnesses -/

/-- A concrete entry snapshot: `entry_combined = 10` (so `sl_level = 25`),
CE/PE split 4/6, frozen USD-INR rate 1000 (so `hard_cap_level = 20`). -/
def sampleEntry : EntrySnapshot :=
  { date := "10-10-2025"
    entry_time := "03:30"
    call_symbol := "C-BTC-126000-101025"
    put_symbol := "P-BTC-104000-101025"
    entry_ce := 4
    entry_pe := 6
    entry_combined := 10
    call_strike := 126000
    put_strike := 104000
    usd_to_inr := some 1000 }

/-- Tier inputs whose candles reconstruct a peak of 30 at minute 1402
(14:02), above both `sl_level = 25` and `hard_cap_level = 20`. -/
def breachTier : TierInputs :=
  { callCandles := some [(1400, 10), (1402, 20)]
    putCandles := some [(1400, 5), (1402, 10)]
    liveCall := none
    livePut := none
    fallbackSpot := none
    nowMinute := 1715 }

/-- Tier inputs whose candles reconstruct a harmless peak of 5. -/
def quietTier : TierInputs :=
  { callCandles := some [(1400, 2)]
    putCandles := some [(1400, 3)]
    liveCall := none
    livePut := none
    fallbackSpot := none
    nowMinute := 1715 }

/-- STEP 2 inputs where every fetch fails. -/
def emptyStep2 : Step2Inputs :=
  { call1 := none, put1 := none, call2 := none, put2 := none, settlementSpot := none }

/-! ### Theorems -/

theorem pyRoundInt_close (s : ℚ) : |(pyRoundInt s : ℚ) - s| ≤ 1 / 2 := by
  have hfl : ((⌊s⌋ : ℤ) : ℚ) ≤ s := Int.floor_le s
  have hfu : s < ((⌊s⌋ : ℤ) : ℚ) + 1 := Int.lt_floor_add_one s
  unfold pyRoundInt
  split_ifs with h1 h2 h3
  · rw [abs_sub_comm, abs_of_nonneg (by linarith)]
    linarith
  · rw [abs_of_nonneg (by push_cast; linarith)]
    push_cast
    linarith
  · have hhalf : s - ((⌊s⌋ : ℤ) : ℚ) = 1 / 2 := le_antisymm (not_lt.1 h2) (not_lt.1 h1)
    rw [abs_sub_comm, abs_of_nonneg (by linarith)]
    linarith
  · have hhalf : s - ((⌊s⌋ : ℤ) : ℚ) = 1 / 2 := le_antisymm (not_lt.1 h2) (not_lt.1 h1)
    rw [abs_of_nonneg (by push_cast; linarith)]
    push_cast
    linarith

theorem pyRound2_close (q : ℚ) : |pyRound2 q - q| ≤ 1 / 200 := by
  have h := pyRoundInt_close (100 * q)
  have heq : pyRound2 q - q = ((pyRoundInt (100 * q) : ℚ) - 100 * q) / 100 := by
    unfold pyRound2
    ring
  rw [heq, abs_div, abs_of_pos (by norm_num : (0 : ℚ) < 100)]
  linarith

/-- Splitting a combined premium pro-rata and rounding each part to two
decimals reproduces the combined value up to `1/100`. -/
theorem pyRound2_split_close (c ρ : ℚ) :
    |pyRound2 (c * ρ) + pyRound2 (c * (1 - ρ)) - c| ≤ 1 / 100 := by
  have h1 := pyRound2_close (c * ρ)
  have h2 := pyRound2_close (c * (1 - ρ))
  have heq : pyRound2 (c * ρ) + pyRound2 (c * (1 - ρ)) - c =
      (pyRound2 (c * ρ) - c * ρ) + (pyRound2 (c * (1 - ρ)) - c * (1 - ρ)) := by ring
  calc |pyRound2 (c * ρ) + pyRound2 (c * (1 - ρ)) - c|
      ≤ |pyRound2 (c * ρ) - c * ρ| + |pyRound2 (c * (1 - ρ)) - c * (1 - ρ)| := by
        rw [heq]; exact abs_add _ _
    _ ≤ 1 / 100 := by linarith

/-- STEP 2 never sets a breach flag: breaches are only recorded by STEP 1
and the safety fallback. -/
theorem step2Run_no_breach (e : EntrySnapshot) (t : TierInputs) (s : Step2Inputs)
    (warn : Bool) :
    (step2Run e t s warn).sl_breached = false ∧
    (step2Run e t s warn).hard_cap_breached = false := by
  unfold step2Run
  dsimp only
  constructor <;> (repeat' split) <;> rfl

/-- C8: in an EXIT-phase run whose loaded snapshot has a date different
from the evaluation date, the run ends as `staleDiscarded`: the active
trade file is deleted, no tracker row is written, and no exit evaluation
is performed (the outcome is fixed whatever the market-data inputs are). -/
theorem c8_stale_snapshot_discarded (e : EntrySnapshot) (today : String) (usd_inr : ℚ)
    (t : TierInputs) (s : Step2Inputs) (h : e.date ≠ today) :
    exit_phase true e today usd_inr t s = ExitPhaseOutcome.staleDiscarded ∧
    trackerRow (exit_phase true e today usd_inr t s) = none ∧
    activeFileDeleted (exit_phase true e today usd_inr t s) = true := by
  have hp : exit_phase true e today usd_inr t s = ExitPhaseOutcome.staleDiscarded := by
    unfold exit_phase
    simp [h]
  exact ⟨hp, by rw [hp]; rfl, by rw [hp]; rfl⟩

theorem c8_stale_snapshot_discarded_witness :
    sampleEntry.date ≠ "11-10-2025" ∧
    trackerRow (exit_phase true sampleEntry "11-10-2025" 84 quietTier emptyStep2) = none ∧
    activeFileDeleted (exit_phase true sampleEntry "11-10-2025" 84 quietTier emptyStep2) = true := by
  have hd : sampleEntry.date ≠ "11-10-2025" := by decide
  have h := c8_stale_snapshot_discarded sampleEntry "11-10-2025" 84 quietTier emptyStep2 hd
  exact ⟨hd, h.2.1, h.2.2⟩

/-- C1: whenever an EXIT evaluation records a breach (soft SL or hard
cap), that breach was produced by STEP 1 or its safety fallback, the
recorded values are exactly that stage's attribution, and the result does
not depend on the STEP 2 live 5:15 PM fetches at all: STEP 2 is skipped,
so a STEP 2 data-fetch failure can never turn a detected breach into a
full-profit outcome. -/
theorem c1_breach_skips_step2 (e : EntrySnapshot) (usd_inr : ℚ) (t : TierInputs)
    (s : Step2Inputs)
    (hb : (evaluate_exit e usd_inr t s).sl_breached = true ∨
          (evaluate_exit e usd_inr t s).hard_cap_breached = true) :
    stage1 e usd_inr t = Stage1Out.breachFound (evaluate_exit e usd_inr t s) ∧
    ∀ s' : Step2Inputs, evaluate_exit e usd_inr t s' = evaluate_exit e usd_inr t s := by
  cases h1 : stage1 e usd_inr t with
  | breachFound r =>
    have hv : evaluate_exit e usd_inr t s = r := by unfold evaluate_exit; rw [h1]
    refine ⟨by rw [hv], fun s' => ?_⟩
    have hv' : evaluate_exit e usd_inr t s' = r := by unfold evaluate_exit; rw [h1]
    rw [hv, hv']
  | proceed w =>
    exfalso
    have hv : evaluate_exit e usd_inr t s = step2Run e t s w := by
      unfold evaluate_exit; rw [h1]
    rcases hb with hb | hb
    · rw [hv, (step2Run_no_breach e t s w).1] at hb
      exact Bool.false_ne_true hb
    · rw [hv, (step2Run_no_breach e t s w).2] at hb
      exact Bool.false_ne_true hb

theorem c1_breach_skips_step2_witness :
    ((evaluate_exit sampleEntry 84 breachTier emptyStep2).sl_breached = true ∨
     (evaluate_exit sampleEntry 84 breachTier emptyStep2).hard_cap_breached = true) ∧
    evaluate_exit sampleEntry 84 breachTier
        { call1 := some { bid := 0, ask := 50 }, put1 := some { bid := 0, ask := 50 },
          call2 := none, put2 := none, settlementSpot := some 115000 } =
      evaluate_exit sampleEntry 84 breachTier emptyStep2 := by
  have hb : (evaluate_exit sampleEntry 84 breachTier emptyStep2).sl_breached = true := by
    norm_num [evaluate_exit, stage1, sl_level_of, hard_cap_level_of, ceShare,
      get_intraday_worst_combined, fetchCandleDict, buildCandleDict, upsert, commonTs,
      dictKeys, lookupTs, worstStep, sampleEntry, breachTier, emptyStep2,
      SL_COMBINED_MULTIPLIER, HARD_MAX_LOSS_INR, POSITION_SIZE_BTC, POSITION_SIZE_LOTS]
  exact ⟨Or.inl hb,
    (c1_breach_skips_step2 sampleEntry 84 breachTier emptyStep2 (Or.inl hb)).2 _⟩

/-- When STEP 1's candle reconstruction reports an SL breach, the whole
evaluation returns the SL attribution record. -/
theorem evaluate_exit_intraday_sl (e : EntrySnapshot) (usd_inr : ℚ) (t : TierInputs)
    (s : Step2Inputs) (r : IntradayRes)
    (hI : get_intraday_worst_combined t.callCandles t.putCandles (sl_level_of e)
        (hard_cap_level_of e usd_inr) = some r)
    (hsl : r.sl_breached = true) :
    evaluate_exit e usd_inr t s =
      { sl_breached := true
        hard_cap_breached := false
        exit_ce := pyRound2 (sl_level_of e * ceShare e)
        exit_pe := pyRound2 (sl_level_of e * (1 - ceShare e))
        exit_combined := sl_level_of e
        exit_time := r.worst_ts
        exit_reason := ExitReason.slIntraday
        manual_review := false } := by
  unfold evaluate_exit stage1
  dsimp only
  rw [hI]
  simp [hsl]

/-- When STEP 1's candle reconstruction reports no SL breach but a
hard-cap breach, the whole evaluation returns the hard-cap attribution. -/
theorem evaluate_exit_intraday_hc (e : EntrySnapshot) (usd_inr : ℚ) (t : TierInputs)
    (s : Step2Inputs) (r : IntradayRes)
    (hI : get_intraday_worst_combined t.callCandles t.putCandles (sl_level_of e)
        (hard_cap_level_of e usd_inr) = some r)
    (hsl : r.sl_breached = false) (hhc : r.hard_cap_breached = true) :
    evaluate_exit e usd_inr t s =
      { sl_breached := false
        hard_cap_breached := true
        exit_ce := pyRound2 (hard_cap_level_of e usd_inr * ceShare e)
        exit_pe := pyRound2 (hard_cap_level_of e usd_inr * (1 - ceShare e))
        exit_combined := hard_cap_level_of e usd_inr
        exit_time := r.worst_ts
        exit_reason := ExitReason.hardCapIntraday
        manual_review := false } := by
  unfold evaluate_exit stage1
  dsimp only
  rw [hI]
  simp [hsl, hhc]

/-- Concrete STEP 1 evaluation over `breachTier`: peak 30 at minute 1402
over 2 overlapping candles, breaching both levels (25 and 20). -/
theorem breachTier_intraday :
    get_intraday_worst_combined breachTier.callCandles breachTier.putCandles
      (sl_level_of sampleEntry) (hard_cap_level_of sampleEntry 84) =
      some { worst_combined := 30, worst_ts := some 1402, candle_count := 2,
             sl_breached := true, hard_cap_breached := true } := by
  norm_num [get_intraday_worst_combined, fetchCandleDict, buildCandleDict, upsert,
    commonTs, dictKeys, lookupTs, worstStep, sampleEntry, breachTier, sl_level_of,
    hard_cap_level_of, SL_COMBINED_MULTIPLIER, HARD_MAX_LOSS_INR, POSITION_SIZE_BTC,
    POSITION_SIZE_LOTS]

/-- C2: whenever candle reconstruction returns a peak at or above
`sl_level`, the decision is the soft stop-loss — not the hard cap, even if
the peak also exceeds `hard_cap_level` — the attributed exit combined
premium is `sl_level` (not the raw peak), and the exit time is the peak's
minute; the threshold formulas are the ones computed from the snapshot. -/
theorem c2_sl_checked_first (e : EntrySnapshot) (usd_inr : ℚ) (t : TierInputs)
    (s : Step2Inputs) (r : IntradayRes)
    (hI : get_intraday_worst_combined t.callCandles t.putCandles (sl_level_of e)
        (hard_cap_level_of e usd_inr) = some r)
    (hsl : r.sl_breached = true) :
    (evaluate_exit e usd_inr t s).sl_breached = true ∧
    (evaluate_exit e usd_inr t s).hard_cap_breached = false ∧
    (evaluate_exit e usd_inr t s).exit_reason = ExitReason.slIntraday ∧
    (evaluate_exit e usd_inr t s).exit_combined = sl_level_of e ∧
    (evaluate_exit e usd_inr t s).exit_time = r.worst_ts ∧
    sl_level_of e = e.entry_combined * SL_COMBINED_MULTIPLIER ∧
    hard_cap_level_of e usd_inr =
      HARD_MAX_LOSS_INR / (e.usd_to_inr.getD usd_inr) / POSITION_SIZE_BTC +
        e.entry_combined := by
  have hv := evaluate_exit_intraday_sl e usd_inr t s r hI hsl
  exact ⟨by rw [hv], by rw [hv], by rw [hv], by rw [hv], by rw [hv], rfl, rfl⟩

theorem c2_sl_checked_first_witness :
    (get_intraday_worst_combined breachTier.callCandles breachTier.putCandles
        (sl_level_of sampleEntry) (hard_cap_level_of sampleEntry 84) =
      some { worst_combined := 30, worst_ts := some 1402, candle_count := 2,
             sl_breached := true, hard_cap_breached := true }) ∧
    sl_level_of sampleEntry = 25 ∧
    hard_cap_level_of sampleEntry 84 = 20 ∧
    (evaluate_exit sampleEntry 84 breachTier emptyStep2).sl_breached = true ∧
    (evaluate_exit sampleEntry 84 breachTier emptyStep2).hard_cap_breached = false ∧
    (evaluate_exit sampleEntry 84 breachTier emptyStep2).exit_reason =
      ExitReason.slIntraday ∧
    (evaluate_exit sampleEntry 84 breachTier emptyStep2).exit_combined = 25 ∧
    (evaluate_exit sampleEntry 84 breachTier emptyStep2).exit_time = some 1402 := by
  have hI := breachTier_intraday
  have h := c2_sl_checked_first sampleEntry 84 breachTier emptyStep2
    { worst_combined := 30, worst_ts := some 1402, candle_count := 2,
      sl_breached := true, hard_cap_breached := true } hI rfl
  have hsl25 : sl_level_of sampleEntry = 25 := by
    norm_num [sl_level_of, sampleEntry, SL_COMBINED_MULTIPLIER]
  have hhc20 : hard_cap_level_of sampleEntry 84 = 20 := by
    norm_num [hard_cap_level_of, sampleEntry, HARD_MAX_LOSS_INR, POSITION_SIZE_BTC,
      POSITION_SIZE_LOTS]
  refine ⟨hI, hsl25, hhc20, h.1, h.2.1, h.2.2.1, ?_, h.2.2.2.2.1⟩
  rw [h.2.2.2.1, hsl25]

/-- C10: a tier-1 candle-reconstructed breach (SL or hard cap) attributes
per-leg exit premiums pro-rata from the entry split, each rounded to two
decimals, with the CE share defaulting to `1/2` when `entry_combined = 0`;
hence the two legs sum back to the combined value only up to `1/100`. -/
theorem c10_pro_rata_attribution (e : EntrySnapshot) (usd_inr : ℚ) (t : TierInputs)
    (s : Step2Inputs) (r : IntradayRes)
    (hI : get_intraday_worst_combined t.callCandles t.putCandles (sl_level_of e)
        (hard_cap_level_of e usd_inr) = some r)
    (hbr : r.sl_breached = true ∨ r.hard_cap_breached = true) :
    (evaluate_exit e usd_inr t s).exit_ce =
      pyRound2 ((evaluate_exit e usd_inr t s).exit_combined *
        (if e.entry_combined ≠ 0 then e.entry_ce / e.entry_combined else 1 / 2)) ∧
    (evaluate_exit e usd_inr t s).exit_pe =
      pyRound2 ((evaluate_exit e usd_inr t s).exit_combined *
        (1 - (if e.entry_combined ≠ 0 then e.entry_ce / e.entry_combined else 1 / 2))) ∧
    |(evaluate_exit e usd_inr t s).exit_ce + (evaluate_exit e usd_inr t s).exit_pe -
        (evaluate_exit e usd_inr t s).exit_combined| ≤ 1 / 100 := by
  have hshare : ceShare e =
      (if e.entry_combined ≠ 0 then e.entry_ce / e.entry_combined else 1 / 2) := rfl
  by_cases hsl : r.sl_breached = true
  · have hv := evaluate_exit_intraday_sl e usd_inr t s r hI hsl
    refine ⟨by rw [hv, ← hshare], by rw [hv, ← hshare], ?_⟩
    rw [hv]
    exact pyRound2_split_close (sl_level_of e) (ceShare e)
  · have hsl' : r.sl_breached = false := by
      cases h : r.sl_breached
      · rfl
      · exact absurd h hsl
    have hhc : r.hard_cap_breached = true := by
      rcases hbr with hbr | hbr
      · exact absurd hbr hsl
      · exact hbr
    have hv := evaluate_exit_intraday_hc e usd_inr t s r hI hsl' hhc
    refine ⟨by rw [hv, ← hshare], by rw [hv, ← hshare], ?_⟩
    rw [hv]
    exact pyRound2_split_close (hard_cap_level_of e usd_inr) (ceShare e)

theorem c10_pro_rata_attribution_witness :
    (get_intraday_worst_combined breachTier.callCandles breachTier.putCandles
        (sl_level_of sampleEntry) (hard_cap_level_of sampleEntry 84) =
      some { worst_combined := 30, worst_ts := some 1402, candle_count := 2,
             sl_breached := true, hard_cap_breached := true }) ∧
    (evaluate_exit sampleEntry 84 breachTier emptyStep2).exit_ce =
      pyRound2 ((evaluate_exit sampleEntry 84 breachTier emptyStep2).exit_combined *
        (4 / 10)) ∧
    |(evaluate_exit sampleEntry 84 breachTier emptyStep2).exit_ce +
        (evaluate_exit sampleEntry 84 breachTier emptyStep2).exit_pe -
        (evaluate_exit sampleEntry 84 breachTier emptyStep2).exit_combined| ≤ 1 / 100 := by
  have hI := breachTier_intraday
  have h := c10_pro_rata_attribution sampleEntry 84 breachTier emptyStep2
    { worst_combined := 30, worst_ts := some 1402, candle_count := 2,
      sl_breached := true, hard_cap_breached := true } hI (Or.inl rfl)
  refine ⟨hI, ?_, h.2.2⟩
  have : (if sampleEntry.entry_combined ≠ 0 then
      sampleEntry.entry_ce / sampleEntry.entry_combined else 1 / 2) = 4 / 10 := by
    norm_num [sampleEntry]
  rw [h.1, this]


/-- FIX 3 zero-exit guard, isolated: when both STEP 2 legs succeed with a
zero ask, the recorded exit is the settlement-spot intrinsic estimate,
`expiredOTMWin` when it is exactly zero and a manual-review-flagged
early/time exit otherwise. -/
theorem step2Run_zero_guard (e : EntrySnapshot) (t : TierInputs) (s : Step2Inputs)
    (w : Bool) (cq pq : Quote) (spot : ℚ)
    (hc : s.call1 = some cq) (hp : s.put1 = some pq)
    (hca : cq.ask = 0) (hpa : pq.ask = 0)
    (hspot : s.settlementSpot = some spot) :
    step2Run e t s w =
      if max 0 (spot - e.call_strike) + max 0 (e.put_strike - spot) = 0 then
        { sl_breached := false
          hard_cap_breached := false
          exit_ce := max 0 (spot - e.call_strike)
          exit_pe := max 0 (e.put_strike - spot)
          exit_combined := max 0 (spot - e.call_strike) + max 0 (e.put_strike - spot)
          exit_time := some t.nowMinute
          exit_reason := ExitReason.expiredOTMWin
          manual_review := w }
      else
        { sl_breached := false
          hard_cap_breached := false
          exit_ce := max 0 (spot - e.call_strike)
          exit_pe := max 0 (e.put_strike - spot)
          exit_combined := max 0 (spot - e.call_strike) + max 0 (e.put_strike - spot)
          exit_time := some t.nowMinute
          exit_reason :=
            if max 0 (spot - e.call_strike) + max 0 (e.put_strike - spot) <
                EARLY_EXIT_PREMIUM then ExitReason.earlyExitDecay
            else ExitReason.timeExit515
          manual_review := true } := by
  unfold step2Run
  rw [hc, hp, hspot]
  dsimp only
  simp only [Option.isSome_some, Bool.and_self, eq_self_iff_true, if_true,
    Option.map_some', Option.getD_some, hca, hpa, zero_add]

/-- C3: if STEP 2's live fetch succeeds but both legs report exactly zero
ask, the evaluator does not accept the zero: it computes the
spot-intrinsic estimate (put: `max(0, strike - spot)`, call:
`max(0, spot - strike)`) and records it as the exit value, reporting a
legitimate expired-worthless win when the estimate is exactly zero, and a
manual-review-flagged non-zero exit (never a silent full-profit zero)
when the estimate is non-zero. -/
theorem c3_zero_premium_guard (e : EntrySnapshot) (usd_inr : ℚ) (t : TierInputs)
    (s : Step2Inputs) (w : Bool) (cq pq : Quote) (spot : ℚ)
    (h1 : stage1 e usd_inr t = Stage1Out.proceed w)
    (hc : s.call1 = some cq) (hp : s.put1 = some pq)
    (hca : cq.ask = 0) (hpa : pq.ask = 0)
    (hspot : s.settlementSpot = some spot) :
    (evaluate_exit e usd_inr t s).exit_ce = max 0 (spot - e.call_strike) ∧
    (evaluate_exit e usd_inr t s).exit_pe = max 0 (e.put_strike - spot) ∧
    (evaluate_exit e usd_inr t s).exit_combined =
      max 0 (spot - e.call_strike) + max 0 (e.put_strike - spot) ∧
    (max 0 (spot - e.call_strike) + max 0 (e.put_strike - spot) = 0 →
      (evaluate_exit e usd_inr t s).exit_reason = ExitReason.expiredOTMWin) ∧
    (max 0 (spot - e.call_strike) + max 0 (e.put_strike - spot) ≠ 0 →
      (evaluate_exit e usd_inr t s).manual_review = true ∧
      (evaluate_exit e usd_inr t s).exit_combined ≠ 0 ∧
      (evaluate_exit e usd_inr t s).exit_reason ≠ ExitReason.expiredOTMWin) := by
  have hv : evaluate_exit e usd_inr t s = step2Run e t s w := by
    unfold evaluate_exit; rw [h1]
  rw [hv, step2Run_zero_guard e t s w cq pq spot hc hp hca hpa hspot]
  by_cases hz : max 0 (spot - e.call_strike) + max 0 (e.put_strike - spot) = 0
  · rw [if_pos hz]
    exact ⟨rfl, rfl, rfl, fun _ => rfl, fun hnz => absurd hz hnz⟩
  · rw [if_neg hz]
    refine ⟨rfl, rfl, rfl, fun h0 => absurd h0 hz, fun _ => ⟨rfl, hz, ?_⟩⟩
    split <;> simp

theorem c3_zero_premium_guard_witness :
    (stage1 sampleEntry 84
        { callCandles := none, putCandles := none,
          liveCall := some { bid := 0, ask := 0 }, livePut := some { bid := 0, ask := 0 },
          fallbackSpot := none, nowMinute := 1715 } = Stage1Out.proceed false) ∧
    (evaluate_exit sampleEntry 84
        { callCandles := none, putCandles := none,
          liveCall := some { bid := 0, ask := 0 }, livePut := some { bid := 0, ask := 0 },
          fallbackSpot := none, nowMinute := 1715 }
        { call1 := some { bid := 0, ask := 0 }, put1 := some { bid := 0, ask := 0 },
          call2 := none, put2 := none, settlementSpot := some 103950 }).exit_combined = 50 ∧
    (evaluate_exit sampleEntry 84
        { callCandles := none, putCandles := none,
          liveCall := some { bid := 0, ask := 0 }, livePut := some { bid := 0, ask := 0 },
          fallbackSpot := none, nowMinute := 1715 }
        { call1 := some { bid := 0, ask := 0 }, put1 := some { bid := 0, ask := 0 },
          call2 := none, put2 := none, settlementSpot := some 103950 }).manual_review = true ∧
    (evaluate_exit sampleEntry 84
        { callCandles := none, putCandles := none,
          liveCall := some { bid := 0, ask := 0 }, livePut := some { bid := 0, ask := 0 },
          fallbackSpot := none, nowMinute := 1715 }
        { call1 := some { bid := 0, ask := 0 }, put1 := some { bid := 0, ask := 0 },
          call2 := none, put2 := none, settlementSpot := some 103950 }).exit_reason ≠
      ExitReason.expiredOTMWin := by
  have h1 : stage1 sampleEntry 84
      { callCandles := none, putCandles := none,
        liveCall := some { bid := 0, ask := 0 }, livePut := some { bid := 0, ask := 0 },
        fallbackSpot := none, nowMinute := 1715 } = Stage1Out.proceed false := by
    norm_num [stage1, get_intraday_worst_combined, fetchCandleDict, sl_level_of,
      sampleEntry, SL_COMBINED_MULTIPLIER]
  have h := c3_zero_premium_guard sampleEntry 84
    { callCandles := none, putCandles := none,
      liveCall := some { bid := 0, ask := 0 }, livePut := some { bid := 0, ask := 0 },
      fallbackSpot := none, nowMinute := 1715 }
    { call1 := some { bid := 0, ask := 0 }, put1 := some { bid := 0, ask := 0 },
      call2 := none, put2 := none, settlementSpot := some 103950 }
    false { bid := 0, ask := 0 } { bid := 0, ask := 0 } 103950
    h1 rfl rfl rfl rfl rfl
  have hmax : max (0 : ℚ) (103950 - sampleEntry.call_strike) +
      max 0 (sampleEntry.put_strike - 103950) = 50 := by
    norm_num [sampleEntry]
  have hnz : max (0 : ℚ) (103950 - sampleEntry.call_strike) +
      max 0 (sampleEntry.put_strike - 103950) ≠ 0 := by
    rw [hmax]; norm_num
  have h5 := h.2.2.2.2 hnz
  exact ⟨h1, by rw [h.2.2.1, hmax], h5.1, h5.2.2⟩

/-- Concrete STEP 1 evaluation over `quietTier`: peak 5 is below both
thresholds, so evaluation proceeds to STEP 2 with no pending warning. -/
theorem quietTier_stage1 :
    stage1 sampleEntry 84 quietTier = Stage1Out.proceed false := by
  norm_num [stage1, get_intraday_worst_combined, fetchCandleDict, buildCandleDict,
    upsert, commonTs, dictKeys, lookupTs, worstStep, sampleEntry, quietTier,
    sl_level_of, hard_cap_level_of, SL_COMBINED_MULTIPLIER, HARD_MAX_LOSS_INR,
    POSITION_SIZE_BTC, POSITION_SIZE_LOTS]

/-- C4 counterexample: with no breach recorded by STEP 1, the call leg's
STEP 2 fetch failing on both attempts, and the put leg returning ask 7,
the recorded exit is CE = 0 (the failed leg silently defaulted to zero),
PE = 7, with no manual-review flag and no breach — refuting the claim
that a failed leg's exit premium is never silently substituted with
zero. -/
theorem c4_counterexample :
    (evaluate_exit sampleEntry 84 quietTier
        { call1 := none, put1 := some { bid := 0, ask := 7 }, call2 := none,
          put2 := some { bid := 0, ask := 7 }, settlementSpot := some 115000 }).exit_ce
        = 0 ∧
    (evaluate_exit sampleEntry 84 quietTier
        { call1 := none, put1 := some { bid := 0, ask := 7 }, call2 := none,
          put2 := some { bid := 0, ask := 7 }, settlementSpot := some 115000 }).exit_pe
        = 7 ∧
    (evaluate_exit sampleEntry 84 quietTier
        { call1 := none, put1 := some { bid := 0, ask := 7 }, call2 := none,
          put2 := some { bid := 0, ask := 7 }, settlementSpot := some 115000 }).exit_combined
        = 7 ∧
    (evaluate_exit sampleEntry 84 quietTier
        { call1 := none, put1 := some { bid := 0, ask := 7 }, call2 := none,
          put2 := some { bid := 0, ask := 7 }, settlementSpot := some 115000 }).manual_review
        = false ∧
    (evaluate_exit sampleEntry 84 quietTier
        { call1 := none, put1 := some { bid := 0, ask := 7 }, call2 := none,
          put2 := some { bid := 0, ask := 7 }, settlementSpot := some 115000 }).sl_breached
        = false ∧
    (evaluate_exit sampleEntry 84 quietTier
        { call1 := none, put1 := some { bid := 0, ask := 7 }, call2 := none,
          put2 := some { bid := 0, ask := 7 }, settlementSpot := some 115000 }).hard_cap_breached
        = false := by
  have hv : evaluate_exit sampleEntry 84 quietTier
      { call1 := none, put1 := some { bid := 0, ask := 7 }, call2 := none,
        put2 := some { bid := 0, ask := 7 }, settlementSpot := some 115000 } =
      step2Run sampleEntry quietTier
      { call1 := none, put1 := some { bid := 0, ask := 7 }, call2 := none,
        put2 := some { bid := 0, ask := 7 }, settlementSpot := some 115000 } false := by
    unfold evaluate_exit; rw [quietTier_stage1]
  rw [hv]
  norm_num [step2Run, EARLY_EXIT_PREMIUM]

/-- C4 amended: when no breach was recorded before STEP 2, the recorded
per-leg exit premiums are exactly the fetched asks with a failed leg
defaulting to zero, and as long as the resulting combined value is not
exactly zero the zero-exit guard does not fire: no flag is raised and no
breach is recorded.  In particular a single failed leg beside a non-zero
leg is silently written as zero; only a combined value of exactly zero
triggers the intrinsic-estimate fallback. -/
theorem c4_amended_gap_defaults_zero (e : EntrySnapshot) (usd_inr : ℚ) (t : TierInputs)
    (s : Step2Inputs) (w : Bool)
    (h1 : stage1 e usd_inr t = Stage1Out.proceed w)
    (hnz : ((if s.call1.isSome && s.put1.isSome then s.call1 else s.call2).map
        Quote.ask).getD 0 +
      ((if s.call1.isSome && s.put1.isSome then s.put1 else s.put2).map
        Quote.ask).getD 0 ≠ 0) :
    (evaluate_exit e usd_inr t s).exit_ce =
      ((if s.call1.isSome && s.put1.isSome then s.call1 else s.call2).map
        Quote.ask).getD 0 ∧
    (evaluate_exit e usd_inr t s).exit_pe =
      ((if s.call1.isSome && s.put1.isSome then s.put1 else s.put2).map
        Quote.ask).getD 0 ∧
    (evaluate_exit e usd_inr t s).exit_combined =
      ((if s.call1.isSome && s.put1.isSome then s.call1 else s.call2).map
        Quote.ask).getD 0 +
      ((if s.call1.isSome && s.put1.isSome then s.put1 else s.put2).map
        Quote.ask).getD 0 ∧
    (evaluate_exit e usd_inr t s).manual_review = w ∧
    (evaluate_exit e usd_inr t s).sl_breached = false ∧
    (evaluate_exit e usd_inr t s).hard_cap_breached = false := by
  have hv : evaluate_exit e usd_inr t s = step2Run e t s w := by
    unfold evaluate_exit; rw [h1]
  rw [hv]
  unfold step2Run
  dsimp only
  rw [if_neg hnz]
  exact ⟨rfl, rfl, rfl, rfl, rfl, rfl⟩

theorem c4_amended_gap_defaults_zero_witness :
    (stage1 sampleEntry 84 quietTier = Stage1Out.proceed false) ∧
    (evaluate_exit sampleEntry 84 quietTier
        { call1 := none, put1 := some { bid := 0, ask := 7 }, call2 := none,
          put2 := some { bid := 0, ask := 7 }, settlementSpot := some 115000 }).exit_ce
        = 0 ∧
    (evaluate_exit sampleEntry 84 quietTier
        { call1 := none, put1 := some { bid := 0, ask := 7 }, call2 := none,
          put2 := some { bid := 0, ask := 7 }, settlementSpot := some 115000 }).manual_review
        = false := by
  have h1 := quietTier_stage1
  have h := c4_amended_gap_defaults_zero sampleEntry 84 quietTier
    { call1 := none, put1 := some { bid := 0, ask := 7 }, call2 := none,
      put2 := some { bid := 0, ask := 7 }, settlementSpot := some 115000 } false h1
    (by norm_num)
  refine ⟨h1, ?_, h.2.2.2.1⟩
  rw [h.1]
  norm_num

/-- The FIX 4 live-quote fallback tier, isolated: candle data unavailable
and both live quotes succeeding reduces STEP 1 to a single comparison of
the live combined ask against `sl_level`. -/
theorem stage1_live_fallback (e : EntrySnapshot) (usd_inr : ℚ) (t : TierInputs)
    (cq pq : Quote)
    (hI : get_intraday_worst_combined t.callCandles t.putCandles (sl_level_of e)
        (hard_cap_level_of e usd_inr) = none)
    (hlc : t.liveCall = some cq) (hlp : t.livePut = some pq) :
    stage1 e usd_inr t =
      if sl_level_of e ≤ cq.ask + pq.ask then
        Stage1Out.breachFound
          { sl_breached := true
            hard_cap_breached := false
            exit_ce := cq.ask
            exit_pe := pq.ask
            exit_combined := cq.ask + pq.ask
            exit_time := some t.nowMinute
            exit_reason := ExitReason.slLiveFallback
            manual_review := false }
      else Stage1Out.proceed false := by
  unfold stage1
  dsimp only
  rw [hI, hlc, hlp]

/-- Any hard-cap breach recorded by STEP 1 or its fallbacks can only come
from the candle-reconstruction tier (with the SL check passing first). -/
theorem stage1_breach_hc_source (e : EntrySnapshot) (usd_inr : ℚ) (t : TierInputs)
    (r' : ExitEval) (h : stage1 e usd_inr t = Stage1Out.breachFound r')
    (hhc : r'.hard_cap_breached = true) :
    ∃ r, get_intraday_worst_combined t.callCandles t.putCandles (sl_level_of e)
        (hard_cap_level_of e usd_inr) = some r ∧
      r.sl_breached = false ∧ r.hard_cap_breached = true := by
  unfold stage1 at h
  dsimp only at h
  rcases hI : get_intraday_worst_combined t.callCandles t.putCandles (sl_level_of e)
      (hard_cap_level_of e usd_inr) with _ | r
  · rw [hI] at h
    dsimp only at h
    exfalso
    rcases hlc : t.liveCall with _ | cq
    · rw [hlc] at h
      dsimp only at h
      rcases hfs : t.fallbackSpot with _ | spot
      · rw [hfs] at h
        dsimp only at h
        simp at h
      · rw [hfs] at h
        dsimp only at h
        split_ifs at h
        rw [Stage1Out.breachFound.injEq] at h
        subst h
        simp at hhc
    · rcases hlp : t.livePut with _ | pq
      · rw [hlc, hlp] at h
        dsimp only at h
        rcases hfs : t.fallbackSpot with _ | spot
        · rw [hfs] at h
          dsimp only at h
          simp at h
        · rw [hfs] at h
          dsimp only at h
          split_ifs at h
          rw [Stage1Out.breachFound.injEq] at h
          subst h
          simp at hhc
      · rw [hlc, hlp] at h
        dsimp only at h
        split_ifs at h
        rw [Stage1Out.breachFound.injEq] at h
        subst h
        simp at hhc
  · rw [hI] at h
    dsimp only at h
    by_cases hsl : r.sl_breached = true
    · rw [if_pos hsl] at h
      rw [Stage1Out.breachFound.injEq] at h
      subst h
      simp at hhc
    · have hsl2 : r.sl_breached = false := by simpa using hsl
      rw [if_neg hsl] at h
      by_cases hhc2 : r.hard_cap_breached = true
      · exact ⟨r, rfl, hsl2, hhc2⟩
      · rw [if_neg hhc2] at h
        simp at h

/-- C7: the hard-loss cap is evaluated only against candle-reconstructed
peaks: the recorded decision has `hard_cap_breached` exactly when tier 1
returned a peak breaching the cap but not the SL; and when tier 1 is
unavailable and both live quotes succeed, the live combined ask is
compared against `sl_level` only — the hard cap can never be reported
from the live-quote (or spot-intrinsic) fallbacks. -/
theorem c7_hard_cap_only_from_candles (e : EntrySnapshot) (usd_inr : ℚ)
    (t : TierInputs) (s : Step2Inputs) :
    ((evaluate_exit e usd_inr t s).hard_cap_breached = true ↔
      ∃ r, get_intraday_worst_combined t.callCandles t.putCandles (sl_level_of e)
          (hard_cap_level_of e usd_inr) = some r ∧
        r.sl_breached = false ∧ r.hard_cap_breached = true) ∧
    (∀ cq pq : Quote,
      get_intraday_worst_combined t.callCandles t.putCandles (sl_level_of e)
          (hard_cap_level_of e usd_inr) = none →
      t.liveCall = some cq → t.livePut = some pq →
      (((evaluate_exit e usd_inr t s).sl_breached = true) ↔
        sl_level_of e ≤ cq.ask + pq.ask) ∧
      (evaluate_exit e usd_inr t s).hard_cap_breached = false) := by
  constructor
  · constructor
    · intro hhc
      cases h1 : stage1 e usd_inr t with
      | breachFound r' =>
        have hv : evaluate_exit e usd_inr t s = r' := by
          unfold evaluate_exit; rw [h1]
        rw [hv] at hhc
        exact stage1_breach_hc_source e usd_inr t r' h1 hhc
      | proceed w =>
        have hv : evaluate_exit e usd_inr t s = step2Run e t s w := by
          unfold evaluate_exit; rw [h1]
        rw [hv, (step2Run_no_breach e t s w).2] at hhc
        simp at hhc
    · rintro ⟨r, hI, hsl, hhc⟩
      rw [evaluate_exit_intraday_hc e usd_inr t s r hI hsl hhc]
  · intro cq pq hI hlc hlp
    have hst := stage1_live_fallback e usd_inr t cq pq hI hlc hlp
    by_cases hcmp : sl_level_of e ≤ cq.ask + pq.ask
    · have hv : evaluate_exit e usd_inr t s =
          { sl_breached := true
            hard_cap_breached := false
            exit_ce := cq.ask
            exit_pe := pq.ask
            exit_combined := cq.ask + pq.ask
            exit_time := some t.nowMinute
            exit_reason := ExitReason.slLiveFallback
            manual_review := false } := by
        unfold evaluate_exit; rw [hst, if_pos hcmp]
      constructor
      · rw [hv]
        simp [hcmp]
      · rw [hv]
    · have hv : evaluate_exit e usd_inr t s = step2Run e t s false := by
        unfold evaluate_exit; rw [hst, if_neg hcmp]
      constructor
      · rw [hv, (step2Run_no_breach e t s false).1]
        simp [hcmp]
      · rw [hv]
        exact (step2Run_no_breach e t s false).2

theorem c7_hard_cap_only_from_candles_witness :
    (evaluate_exit sampleEntry 84
        { callCandles := some [(1400, 14)], putCandles := some [(1400, 8)],
          liveCall := none, livePut := none, fallbackSpot := none,
          nowMinute := 1715 } emptyStep2).hard_cap_breached = true ∧
    (evaluate_exit sampleEntry 84
        { callCandles := none, putCandles := none,
          liveCall := some { bid := 0, ask := 20 }, livePut := some { bid := 0, ask := 10 },
          fallbackSpot := none, nowMinute := 1715 } emptyStep2).sl_breached = true ∧
    (evaluate_exit sampleEntry 84
        { callCandles := none, putCandles := none,
          liveCall := some { bid := 0, ask := 20 }, livePut := some { bid := 0, ask := 10 },
          fallbackSpot := none, nowMinute := 1715 } emptyStep2).hard_cap_breached =
      false := by
  have hIhc : get_intraday_worst_combined (some [(1400, 14)]) (some [(1400, 8)])
      (sl_level_of sampleEntry) (hard_cap_level_of sampleEntry 84) =
      some { worst_combined := 22, worst_ts := some 1400, candle_count := 1,
             sl_breached := false, hard_cap_breached := true } := by
    norm_num [get_intraday_worst_combined, fetchCandleDict, buildCandleDict, upsert,
      commonTs, dictKeys, lookupTs, worstStep, sampleEntry, sl_level_of,
      hard_cap_level_of, SL_COMBINED_MULTIPLIER, HARD_MAX_LOSS_INR, POSITION_SIZE_BTC,
      POSITION_SIZE_LOTS]
  have hInone : get_intraday_worst_combined (none : Option (List (ℕ × ℚ)))
      (none : Option (List (ℕ × ℚ)))
      (sl_level_of sampleEntry) (hard_cap_level_of sampleEntry 84) = none := rfl
  have h1 := (c7_hard_cap_only_from_candles sampleEntry 84
    { callCandles := some [(1400, 14)], putCandles := some [(1400, 8)],
      liveCall := none, livePut := none, fallbackSpot := none,
      nowMinute := 1715 } emptyStep2).1.mpr
    ⟨{ worst_combined := 22, worst_ts := some 1400, candle_count := 1,
       sl_breached := false, hard_cap_breached := true }, hIhc, rfl, rfl⟩
  have h2 := (c7_hard_cap_only_from_candles sampleEntry 84
    { callCandles := none, putCandles := none,
      liveCall := some { bid := 0, ask := 20 }, livePut := some { bid := 0, ask := 10 },
      fallbackSpot := none, nowMinute := 1715 } emptyStep2).2
    { bid := 0, ask := 20 } { bid := 0, ask := 10 } hInone rfl rfl
  refine ⟨h1, h2.1.mpr ?_, h2.2⟩
  norm_num [sl_level_of, sampleEntry, SL_COMBINED_MULTIPLIER]

/-- C9: each tick of `monitor_live` evaluates its terminal transitions in
the order TIME_EXIT, MANUAL_EXIT, SOFT_SL, HARD_CAP, EARLY_EXIT: once the
wall clock reaches the 17:15 boundary TIME_EXIT fires on that tick
whatever the quote, position or threshold state is (and over a whole run,
on the first boundary tick after any stretch of non-terminal ticks,
whatever comes later); a price-fetch failure before the boundary never
causes a transition, the loop just retries; and each lower-priority
transition fires only when every higher-priority condition is false. -/
theorem c9_monitor_priority (ec usd_inr : ℚ) (t : TickInput) :
    (timeBoundaryReached t.hour t.minute →
      monitor_step ec usd_inr t = StepResult.exitNow
        { exit_ce := (t.timeExitCall.map Quote.ask).getD 0
          exit_pe := (t.timeExitPut.map Quote.ask).getD 0
          exit_combined := (t.timeExitCall.map Quote.ask).getD 0 +
            (t.timeExitPut.map Quote.ask).getD 0
          reason := MonitorReason.timeExit }) ∧
    (¬ timeBoundaryReached t.hour t.minute →
      (t.callQuote = none ∨ t.putQuote = none) →
      monitor_step ec usd_inr t = StepResult.retry) ∧
    (∀ cd pd : Quote, ¬ timeBoundaryReached t.hour t.minute →
      t.callQuote = some cd → t.putQuote = some pd →
      t.posFetch = some (false, false) →
      monitor_step ec usd_inr t = StepResult.exitNow
        { exit_ce := cd.ask, exit_pe := pd.ask, exit_combined := cd.ask + pd.ask,
          reason := MonitorReason.manualExit }) ∧
    (∀ cd pd : Quote, ¬ timeBoundaryReached t.hour t.minute →
      t.callQuote = some cd → t.putQuote = some pd →
      (∀ a b : Bool, t.posFetch = some (a, b) → a = true ∨ b = true) →
      ec * SL_COMBINED_MULTIPLIER ≤ cd.ask + pd.ask →
      monitor_step ec usd_inr t = StepResult.exitNow
        { exit_ce := cd.ask, exit_pe := pd.ask, exit_combined := cd.ask + pd.ask,
          reason := MonitorReason.softSL }) ∧
    (∀ cd pd : Quote, ¬ timeBoundaryReached t.hour t.minute →
      t.callQuote = some cd → t.putQuote = some pd →
      (∀ a b : Bool, t.posFetch = some (a, b) → a = true ∨ b = true) →
      ¬ (ec * SL_COMBINED_MULTIPLIER ≤ cd.ask + pd.ask) →
      HARD_MAX_LOSS_INR ≤ (cd.ask + pd.ask - ec) * POSITION_SIZE_BTC * usd_inr →
      monitor_step ec usd_inr t = StepResult.exitNow
        { exit_ce := cd.ask, exit_pe := pd.ask, exit_combined := cd.ask + pd.ask,
          reason := MonitorReason.hardCap }) ∧
    (∀ cd pd : Quote, ¬ timeBoundaryReached t.hour t.minute →
      t.callQuote = some cd → t.putQuote = some pd →
      (∀ a b : Bool, t.posFetch = some (a, b) → a = true ∨ b = true) →
      ¬ (ec * SL_COMBINED_MULTIPLIER ≤ cd.ask + pd.ask) →
      ¬ (HARD_MAX_LOSS_INR ≤ (cd.ask + pd.ask - ec) * POSITION_SIZE_BTC * usd_inr) →
      cd.ask + pd.ask < EARLY_EXIT_PREMIUM →
      monitor_step ec usd_inr t = StepResult.exitNow
        { exit_ce := cd.ask, exit_pe := pd.ask, exit_combined := cd.ask + pd.ask,
          reason := MonitorReason.earlyExit }) ∧
    (∀ pre rest : List TickInput,
      (∀ i ∈ pre, monitor_step ec usd_inr i = StepResult.retry) →
      timeBoundaryReached t.hour t.minute →
      monitor_run ec usd_inr (pre ++ t :: rest) = some
        { exit_ce := (t.timeExitCall.map Quote.ask).getD 0
          exit_pe := (t.timeExitPut.map Quote.ask).getD 0
          exit_combined := (t.timeExitCall.map Quote.ask).getD 0 +
            (t.timeExitPut.map Quote.ask).getD 0
          reason := MonitorReason.timeExit }) := by
  have closedEq : ∀ (a b : Bool), (∀ x y : Bool, some (a, b) = some (x, y) →
      x = true ∨ y = true) → (!a && !b) = false := by
    intro a b hab
    rcases hab a b rfl with h | h <;> subst h <;> simp
  have hstep : timeBoundaryReached t.hour t.minute →
      monitor_step ec usd_inr t = StepResult.exitNow
        { exit_ce := (t.timeExitCall.map Quote.ask).getD 0
          exit_pe := (t.timeExitPut.map Quote.ask).getD 0
          exit_combined := (t.timeExitCall.map Quote.ask).getD 0 +
            (t.timeExitPut.map Quote.ask).getD 0
          reason := MonitorReason.timeExit } := by
    intro h
    unfold monitor_step
    rw [if_pos h]
  refine ⟨hstep, ?_, ?_, ?_, ?_, ?_, ?_⟩
  · intro h hq
    unfold monitor_step
    rw [if_neg h]
    rcases hq with hq | hq
    · rw [hq]
    · rw [hq]
      rcases hc : t.callQuote <;> rfl
  · intro cd pd h hc hp hpos
    unfold monitor_step
    rw [if_neg h, hc, hp, hpos]
    simp
  · intro cd pd h hc hp hnb hsl
    unfold monitor_step
    rw [if_neg h, hc, hp]
    dsimp only
    rcases hpf : t.posFetch with _ | ⟨a, b⟩
    · dsimp only
      rw [if_neg (by simp), if_pos hsl]
    · dsimp only
      rw [closedEq a b (fun x y hxy => hnb x y (hpf.trans hxy))]
      rw [if_neg (by simp), if_pos hsl]
  · intro cd pd h hc hp hnb hnsl hhard
    unfold monitor_step
    rw [if_neg h, hc, hp]
    dsimp only
    rcases hpf : t.posFetch with _ | ⟨a, b⟩
    · dsimp only
      rw [if_neg (by simp), if_neg hnsl, if_pos hhard]
    · dsimp only
      rw [closedEq a b (fun x y hxy => hnb x y (hpf.trans hxy))]
      rw [if_neg (by simp), if_neg hnsl, if_pos hhard]
  · intro cd pd h hc hp hnb hnsl hnhard hearly
    unfold monitor_step
    rw [if_neg h, hc, hp]
    dsimp only
    rcases hpf : t.posFetch with _ | ⟨a, b⟩
    · dsimp only
      rw [if_neg (by simp), if_neg hnsl, if_neg hnhard, if_pos hearly]
    · dsimp only
      rw [closedEq a b (fun x y hxy => hnb x y (hpf.trans hxy))]
      rw [if_neg (by simp), if_neg hnsl, if_neg hnhard, if_pos hearly]
  · intro pre rest hpre htime
    induction pre with
    | nil =>
      simp only [List.nil_append, monitor_run, hstep htime]
    | cons a as ih =>
      have ha : monitor_step ec usd_inr a = StepResult.retry := hpre a (by simp)
      have ih' := ih (fun i hi => hpre i (by simp [hi]))
      simp only [List.cons_append, monitor_run, ha]
      exact ih'

theorem c9_monitor_priority_witness :
    monitor_step 10 84
        { hour := 17, minute := 14, callQuote := none, putQuote := none,
          posFetch := none, timeExitCall := none, timeExitPut := none } =
      StepResult.retry ∧
    monitor_step 10 84
        { hour := 17, minute := 15, callQuote := some { bid := 0, ask := 100 },
          putQuote := some { bid := 0, ask := 100 }, posFetch := some (false, false),
          timeExitCall := none, timeExitPut := none } =
      StepResult.exitNow
        { exit_ce := 0, exit_pe := 0, exit_combined := 0,
          reason := MonitorReason.timeExit } ∧
    monitor_run 10 84
        [{ hour := 17, minute := 14, callQuote := none, putQuote := none,
           posFetch := none, timeExitCall := none, timeExitPut := none },
         { hour := 17, minute := 15, callQuote := some { bid := 0, ask := 100 },
           putQuote := some { bid := 0, ask := 100 }, posFetch := some (false, false),
           timeExitCall := none, timeExitPut := none },
         { hour := 17, minute := 16, callQuote := some { bid := 0, ask := 500 },
           putQuote := some { bid := 0, ask := 500 }, posFetch := some (false, false),
           timeExitCall := some { bid := 0, ask := 500 },
           timeExitPut := some { bid := 0, ask := 500 } }] =
      some { exit_ce := 0, exit_pe := 0, exit_combined := 0,
             reason := MonitorReason.timeExit } := by
  have hretry : monitor_step 10 84
      { hour := 17, minute := 14, callQuote := none, putQuote := none,
        posFetch := none, timeExitCall := none, timeExitPut := none } =
      StepResult.retry :=
    (c9_monitor_priority 10 84
      { hour := 17, minute := 14, callQuote := none, putQuote := none,
        posFetch := none, timeExitCall := none, timeExitPut := none }).2.1
      (by decide) (Or.inl rfl)
  have htime : monitor_step 10 84
      { hour := 17, minute := 15, callQuote := some { bid := 0, ask := 100 },
        putQuote := some { bid := 0, ask := 100 }, posFetch := some (false, false),
        timeExitCall := none, timeExitPut := none } =
      StepResult.exitNow
        { exit_ce := 0, exit_pe := 0, exit_combined := 0,
          reason := MonitorReason.timeExit } := by
    have h := (c9_monitor_priority 10 84
      { hour := 17, minute := 15, callQuote := some { bid := 0, ask := 100 },
        putQuote := some { bid := 0, ask := 100 }, posFetch := some (false, false),
        timeExitCall := none, timeExitPut := none }).1 (by decide)
    simpa using h
  have hrun := (c9_monitor_priority 10 84
    { hour := 17, minute := 15, callQuote := some { bid := 0, ask := 100 },
      putQuote := some { bid := 0, ask := 100 }, posFetch := some (false, false),
      timeExitCall := none, timeExitPut := none }).2.2.2.2.2.2
    [{ hour := 17, minute := 14, callQuote := none, putQuote := none,
       posFetch := none, timeExitCall := none, timeExitPut := none }]
    [{ hour := 17, minute := 16, callQuote := some { bid := 0, ask := 500 },
       putQuote := some { bid := 0, ask := 500 }, posFetch := some (false, false),
       timeExitCall := some { bid := 0, ask := 500 },
       timeExitPut := some { bid := 0, ask := 500 } }]
    (by
      intro i hi
      simp only [List.mem_singleton] at hi
      subst hi
      exact hretry)
    (by decide)
  exact ⟨hretry, htime, by simpa using hrun⟩

/-- Unfolding of the pass filter: liquidity floor and spread cap. -/
theorem candPass_iff (ch : OptionChain) (c : ℕ × ℕ) :
    candPass ch c = true ↔
      MIN_PREMIUM_USD ≤ cbOf ch c ∧ MIN_PREMIUM_USD ≤ pbOf ch c ∧
      spread_pct (caOf ch c) (cbOf ch c) ≤ MAX_SPREAD_PCT ∧
      spread_pct (paOf ch c) (pbOf ch c) ≤ MAX_SPREAD_PCT := by
  simp [candPass, Bool.and_eq_true, decide_eq_true_eq, Bool.not_eq_true',
    decide_eq_false_iff_not, not_lt, and_assoc]

theorem candFold_append (ch : OptionChain) (l : List (ℕ × ℕ)) (c : ℕ × ℕ) :
    candFold ch (l ++ [c]) = candFoldStep ch (candFold ch l) c := by
  unfold candFold
  rw [List.foldl_append]
  rfl

theorem candFold_none_iff (ch : OptionChain) (l : List (ℕ × ℕ)) :
    candFold ch l = none ↔ ∀ c ∈ l, candPass ch c = false := by
  induction l using List.reverseRecOn with
  | nil => simp [candFold]
  | append_singleton as a ih =>
    rw [candFold_append]
    unfold candFoldStep
    constructor
    · intro h
      by_cases hc : (candPass ch a && candAccLt ch (candImb ch a) (candFold ch as)) = true
      · rw [if_pos hc] at h
        exact absurd h (by simp)
      · rw [if_neg hc] at h
        have hall := ih.mp h
        have hpa : candPass ch a = false := by
          rw [h] at hc
          simpa [candAccLt] using hc
        intro c hcm
        rcases List.mem_append.mp hcm with h' | h'
        · exact hall c h'
        · rw [List.mem_singleton.mp h']
          exact hpa
    · intro hall
      have hfas : candFold ch as = none := ih.mpr fun c hc => hall c (by simp [hc])
      rw [hfas]
      have hpa := hall a (by simp)
      simp [candAccLt, hpa]

/-- The scan fold returns the first candidate attaining the minimal
imbalance among the passing candidates, in scan order. -/
theorem candFold_some_spec (ch : OptionChain) (l : List (ℕ × ℕ)) (m : ℕ × ℕ)
    (h : candFold ch l = some m) : IsFirstScanMin ch l m := by
  induction l using List.reverseRecOn generalizing m with
  | nil => simp [candFold] at h
  | append_singleton as a ih =>
    rw [candFold_append] at h
    unfold candFoldStep at h
    rcases hf : candFold ch as with _ | b
    · rw [hf] at h
      by_cases hpa : candPass ch a = true
      · rw [if_pos (by simp [candAccLt, hpa])] at h
        obtain rfl : a = m := Option.some.inj h
        refine ⟨as, [], rfl, hpa, ?_, by simp⟩
        intro c hc hpc
        exact absurd hpc (by simp [(candFold_none_iff ch as).mp hf c hc])
      · rw [if_neg (by simp [candAccLt, hpa])] at h
        exact absurd h (by simp)
    · rw [hf] at h
      by_cases hcond : (candPass ch a && candAccLt ch (candImb ch a) (some b)) = true
      · rw [if_pos hcond] at h
        obtain rfl : a = m := Option.some.inj h
        have hcond2 : candPass ch a = true ∧
            candAccLt ch (candImb ch a) (some b) = true := by simpa using hcond
        have hpa : candPass ch a = true := hcond2.1
        have hlt : candImb ch a < candImb ch b := by
          have h2 := hcond2.2
          simpa [candAccLt] using h2
        obtain ⟨pre, post, heq, hpb, hpre, hpost⟩ := ih b hf
        refine ⟨as, [], rfl, hpa, ?_, by simp⟩
        intro c hc hpc
        rw [heq] at hc
        rcases List.mem_append.mp hc with h' | h'
        · exact lt_trans hlt (hpre c h' hpc)
        · rcases List.mem_cons.mp h' with h'' | h''
          · rw [h'']
            exact hlt
          · exact lt_of_lt_of_le hlt (hpost c h'' hpc)
      · rw [if_neg hcond] at h
        obtain rfl : b = m := Option.some.inj h
        obtain ⟨pre, post, heq, hpb, hpre, hpost⟩ := ih b hf
        refine ⟨pre, post ++ [a], by rw [heq]; simp, hpb, hpre, ?_⟩
        intro c hc hpc
        rcases List.mem_append.mp hc with h' | h'
        · exact hpost c h' hpc
        · rw [List.mem_singleton.mp h'] at hpc ⊢
          have hnlt : ¬ (candImb ch a < candImb ch b) := by
            intro hlt
            exact hcond (by simp [candAccLt, hpc, hlt])
          exact le_of_not_lt hnlt

/-- The source scan body, viewed through `mkCombo`: it tracks exactly the
offsets-level fold. -/
theorem scanStep_map (ch : OptionChain) (o : Option (ℕ × ℕ)) (c : ℕ × ℕ) :
    scanStep ch (o.map (mkCombo ch)) c = (candFoldStep ch o c).map (mkCombo ch) := by
  have hacc : accImbLt (candImb ch c) (o.map (mkCombo ch)) =
      candAccLt ch (candImb ch c) o := by
    rcases o with _ | a
    · rfl
    · rfl
  unfold scanStep candFoldStep
  by_cases h1 : cbOf ch c < MIN_PREMIUM_USD ∨ pbOf ch c < MIN_PREMIUM_USD
  · rw [if_pos h1]
    have hp : candPass ch c = false := by
      rcases h1 with h | h
      · simp [candPass, decide_eq_false_iff_not, not_le.mpr h]
      · simp [candPass, decide_eq_false_iff_not, not_le.mpr h]
    rw [hp]
    simp
  · rw [if_neg h1]
    dsimp only
    push_neg at h1
    have hcb : MIN_PREMIUM_USD ≤ cbOf ch c := h1.1
    have hpb : MIN_PREMIUM_USD ≤ pbOf ch c := h1.2
    by_cases h2 : (decide (MAX_SPREAD_PCT < spread_pct (caOf ch c) (cbOf ch c)) ||
        decide (MAX_SPREAD_PCT < spread_pct (paOf ch c) (pbOf ch c))) = true
    · have hp : candPass ch c = false := by
        rcases Bool.or_eq_true _ _ |>.mp h2 with h | h
        · simp [candPass, decide_eq_true_eq.mp h]
        · simp [candPass, decide_eq_true_eq.mp h]
      rw [h2]
      rw [hp]
      simp
    · have h2f : (decide (MAX_SPREAD_PCT < spread_pct (caOf ch c) (cbOf ch c)) ||
          decide (MAX_SPREAD_PCT < spread_pct (paOf ch c) (pbOf ch c))) = false := by
        simpa using h2
      have hp : candPass ch c = true := by
        have hw := Bool.or_eq_false_iff.mp h2f
        simp [candPass, hcb, hpb, hw.1, hw.2]
      rw [h2f, hp, hacc]
      simp only [Bool.not_false, Bool.true_and]
      rcases hc : candAccLt ch (candImb ch c) o with _ | _
      · simp
      · simp

theorem scan_foldl_map (ch : OptionChain) (l : List (ℕ × ℕ)) (o : Option (ℕ × ℕ)) :
    l.foldl (scanStep ch) (o.map (mkCombo ch)) =
      (l.foldl (candFoldStep ch) o).map (mkCombo ch) := by
  induction l generalizing o with
  | nil => rfl
  | cons c rest ih =>
    rw [List.foldl_cons, List.foldl_cons, scanStep_map]
    exact ih (candFoldStep ch o c)

/-- `run_strike_scan` is the offsets-level fold dressed with `mkCombo`. -/
theorem run_strike_scan_eq (ch : OptionChain) (rs re : ℕ) :
    run_strike_scan ch rs re = (candFold ch (candList ch rs re)).map (mkCombo ch) := by
  unfold run_strike_scan candFold
  exact scan_foldl_map ch (candList ch rs re) none

/-- Global minimality over the scanned list, from the first-min shape. -/
theorem IsFirstScanMin.min_le (ch : OptionChain) (l : List (ℕ × ℕ)) (m : ℕ × ℕ)
    (h : IsFirstScanMin ch l m) :
    ∀ c ∈ l, candPass ch c = true → candImb ch m ≤ candImb ch c := by
  obtain ⟨pre, post, heq, hpm, hpre, hpost⟩ := h
  intro c hc hpc
  rw [heq] at hc
  rcases List.mem_append.mp hc with h' | h'
  · exact le_of_lt (hpre c h' hpc)
  · rcases List.mem_cons.mp h' with h' | h'
    · rw [h']
    · exact hpost c h' hpc

/-- C6: the strike scanner selects, among the candidate pairs of the
scanned range whose legs clear the minimum-premium floor and the maximum
spread, the first pair (in scan order) minimizing the bid imbalance
`|call_bid - put_bid|`; a pair failing the liquidity floor is never
selected; the 10-12 fallback range is scanned exactly when the primary
13-15 scan selects nothing; and `none` (a no-trade day) is returned
exactly when no candidate in either range passes. -/
theorem c6_strike_scanner (ch : OptionChain) :
    (select_strikes ch = none ↔
      (∀ c ∈ candList ch 13 15, candPass ch c = false) ∧
      (∀ c ∈ candList ch 10 12, candPass ch c = false)) ∧
    (∀ b, run_strike_scan ch 13 15 = some b → select_strikes ch = some b) ∧
    (run_strike_scan ch 13 15 = none →
      select_strikes ch = run_strike_scan ch 10 12) ∧
    (∀ rs re : ℕ, ∀ b, run_strike_scan ch rs re = some b →
      ∃ m, b = mkCombo ch m ∧ IsFirstScanMin ch (candList ch rs re) m ∧
        MIN_PREMIUM_USD ≤ b.call_bid ∧ MIN_PREMIUM_USD ≤ b.put_bid ∧
        spread_pct b.call_ask b.call_bid ≤ MAX_SPREAD_PCT ∧
        spread_pct b.put_ask b.put_bid ≤ MAX_SPREAD_PCT ∧
        (∀ c ∈ candList ch rs re, candPass ch c = true →
          candImb ch m ≤ candImb ch c)) := by
  have hspec : ∀ rs re : ℕ, ∀ b, run_strike_scan ch rs re = some b →
      ∃ m, b = mkCombo ch m ∧ IsFirstScanMin ch (candList ch rs re) m ∧
        MIN_PREMIUM_USD ≤ b.call_bid ∧ MIN_PREMIUM_USD ≤ b.put_bid ∧
        spread_pct b.call_ask b.call_bid ≤ MAX_SPREAD_PCT ∧
        spread_pct b.put_ask b.put_bid ≤ MAX_SPREAD_PCT ∧
        (∀ c ∈ candList ch rs re, candPass ch c = true →
          candImb ch m ≤ candImb ch c) := by
    intro rs re b hb
    rw [run_strike_scan_eq] at hb
    rcases hm : candFold ch (candList ch rs re) with _ | m
    · rw [hm] at hb
      exact absurd hb (by simp)
    · rw [hm] at hb
      have hbm : b = mkCombo ch m := (Option.some.inj hb).symm
      have hfm := candFold_some_spec ch (candList ch rs re) m hm
      have hpass : candPass ch m = true := by
        obtain ⟨pre, post, heq, hpm, hpre, hpost⟩ := hfm
        exact hpm
      have hpass4 := (candPass_iff ch m).mp hpass
      refine ⟨m, hbm, hfm, ?_, ?_, ?_, ?_, IsFirstScanMin.min_le ch _ m hfm⟩
      · rw [hbm]
        exact hpass4.1
      · rw [hbm]
        exact hpass4.2.1
      · rw [hbm]
        exact hpass4.2.2.1
      · rw [hbm]
        exact hpass4.2.2.2
  have hnone : ∀ rs re : ℕ, (run_strike_scan ch rs re = none ↔
      ∀ c ∈ candList ch rs re, candPass ch c = false) := by
    intro rs re
    rw [run_strike_scan_eq, Option.map_eq_none']
    exact candFold_none_iff ch (candList ch rs re)
  refine ⟨?_, ?_, ?_, hspec⟩
  · unfold select_strikes
    rcases h13 : run_strike_scan ch 13 15 with _ | b
    · simp only
      rw [hnone 10 12]
      have h1 := (hnone 13 15).mp h13
      exact ⟨fun h2 => ⟨h1, h2⟩, fun h2 => h2.2⟩
    · simp only
      constructor
      · intro h
        exact absurd h (by simp)
      · intro ⟨h1, _⟩
        have := (hnone 13 15).mpr h1
        rw [h13] at this
        exact absurd this (by simp)
  · intro b hb
    unfold select_strikes
    rw [hb]
  · intro hb
    unfold select_strikes
    rw [hb]

theorem c6_strike_scanner_witness :
    run_strike_scan sampleChain 13 15 = none ∧
    select_strikes sampleChain = run_strike_scan sampleChain 10 12 ∧
    select_strikes sampleChain = some (mkCombo sampleChain (10, 10)) ∧
    MIN_PREMIUM_USD ≤ (mkCombo sampleChain (10, 10)).call_bid ∧
    MIN_PREMIUM_USD ≤ (mkCombo sampleChain (10, 10)).put_bid := by
  have h13 : run_strike_scan sampleChain 13 15 = none := rfl
  have hfb := (c6_strike_scanner sampleChain).2.2.1 h13
  have h1012 : run_strike_scan sampleChain 10 12 = some (mkCombo sampleChain (10, 10)) := by
    have hl : candList sampleChain 10 12 = [(10, 10)] := rfl
    unfold run_strike_scan
    rw [hl, List.foldl_cons, List.foldl_nil]
    unfold scanStep
    rw [if_neg (by norm_num [cbOf, pbOf, legBid, callStrikeAt, putStrikeAt, sampleChain,
      MIN_PREMIUM_USD])]
    rw [if_pos]
    norm_num [caOf, cbOf, paOf, pbOf, legAsk, legBid, callStrikeAt, putStrikeAt,
      sampleChain, MAX_SPREAD_PCT, spread_pct, accImbLt]
  have hb := (c6_strike_scanner sampleChain).2.2.2 10 12 (mkCombo sampleChain (10, 10))
    h1012
  obtain ⟨m, hbm, hfm, hcb, hpb, hcs, hps, hmin⟩ := hb
  exact ⟨h13, hfb, by rw [hfb, h1012], hcb, hpb⟩

theorem upsert_of_not_mem (m : List (ℕ × ℚ)) (t : ℕ) (v : ℚ)
    (h : t ∉ m.map Prod.fst) : upsert m t v = m ++ [(t, v)] := by
  induction m with
  | nil => rfl
  | cons a rest ih =>
    unfold upsert
    have hne : a.1 ≠ t := by
      intro he
      exact h (by simp [← he])
    rw [if_neg hne]
    rw [ih (fun hm => h (by simp [hm]))]
    rfl

/-- Over well-formed candle data (no falsy timestamps, one candle per
minute), the dict-building loop is the identity. -/
theorem buildCandleDict_eq_self (cs : List (ℕ × ℚ))
    (hnz : ∀ x ∈ cs, x.1 ≠ 0) (hnd : (cs.map Prod.fst).Nodup) :
    buildCandleDict cs = cs := by
  induction cs using List.reverseRecOn with
  | nil => rfl
  | append_singleton as a ih =>
    have hstep : buildCandleDict (as ++ [a]) =
        if a.1 ≠ 0 then upsert (buildCandleDict as) a.1 a.2 else buildCandleDict as := by
      unfold buildCandleDict
      rw [List.foldl_append]
      rfl
    have hnz' : ∀ x ∈ as, x.1 ≠ 0 := fun x hx => hnz x (by simp [hx])
    have hnd' : (as.map Prod.fst).Nodup := by
      rw [List.map_append] at hnd
      exact (List.nodup_append.mp hnd).1
    have hnotmem : a.1 ∉ as.map Prod.fst := by
      rw [List.map_append] at hnd
      have hdisj := (List.nodup_append.mp hnd).2.2
      intro hm
      exact hdisj hm (by simp)
    rw [hstep, if_pos (hnz a (by simp)), ih hnz' hnd',
      upsert_of_not_mem as a.1 a.2 hnotmem]

/-- Dict lookup on a duplicate-free association list is membership. -/
theorem lookupTs_eq_some_iff (cs : List (ℕ × ℚ)) (hnd : (cs.map Prod.fst).Nodup)
    (t : ℕ) (v : ℚ) : lookupTs cs t = some v ↔ (t, v) ∈ cs := by
  induction cs with
  | nil => simp [lookupTs]
  | cons a rest ih =>
    have hnd' : (rest.map Prod.fst).Nodup := (List.nodup_cons.mp (by simpa using hnd)).2
    have hhead : a.1 ∉ rest.map Prod.fst := (List.nodup_cons.mp (by simpa using hnd)).1
    by_cases he : a.1 = t
    · unfold lookupTs
      rw [List.find?_cons_of_pos _ (by simp [he])]
      simp only [Option.map_some', Option.some.injEq]
      constructor
      · intro hv
        refine List.mem_cons.mpr (Or.inl ?_)
        rw [← he, ← hv]
      · intro hm
        rcases List.mem_cons.mp hm with hm | hm
        · rw [← hm]
        · exact absurd (by simpa using List.mem_map_of_mem Prod.fst hm : t ∈ rest.map Prod.fst)
            (he ▸ hhead)
    · unfold lookupTs
      rw [List.find?_cons_of_neg _ (by simp [he])]
      rw [lookupTs] at ih
      rw [ih hnd']
      constructor
      · intro hm
        exact List.mem_cons_of_mem a hm
      · intro hm
        rcases List.mem_cons.mp hm with hm | hm
        · exact absurd (congrArg Prod.fst hm).symm he
        · exact hm

theorem mem_commonTs (cs ps : List (ℕ × ℚ)) (t : ℕ) :
    t ∈ commonTs cs ps ↔ t ∈ cs.map Prod.fst ∧ t ∈ ps.map Prod.fst := by
  unfold commonTs dictKeys
  rw [List.mem_insertionSort, List.mem_filter]
  simp [List.mem_dedup]

theorem commonTs_length (cs ps : List (ℕ × ℚ)) (hndc : (cs.map Prod.fst).Nodup) :
    (commonTs cs ps).length =
      ((cs.map Prod.fst).filter (fun a => decide (a ∈ ps.map Prod.fst))).length := by
  unfold commonTs dictKeys
  rw [List.length_insertionSort, List.dedup_eq_self.mpr hndc]
  congr 1
  apply List.filter_congr
  intro a _
  simp [List.mem_dedup]

theorem worstFold_spec (cm pm : List (ℕ × ℚ)) (l : List ℕ) :
    ∀ (a : ℚ) (o : Option ℕ),
      (∀ t ∈ l, combAt cm pm t ≤ (l.foldl (worstStep cm pm) (a, o)).1) ∧
      a ≤ (l.foldl (worstStep cm pm) (a, o)).1 ∧
      (((l.foldl (worstStep cm pm) (a, o)).1 = a ∧
        (l.foldl (worstStep cm pm) (a, o)).2 = o) ∨
        ∃ t ∈ l, (l.foldl (worstStep cm pm) (a, o)).1 = combAt cm pm t ∧
          (l.foldl (worstStep cm pm) (a, o)).2 = some t ∧ a < combAt cm pm t) := by
  induction l with
  | nil =>
    intro a o
    exact ⟨by simp, le_refl a, Or.inl ⟨rfl, rfl⟩⟩
  | cons t rest ih =>
    intro a o
    rw [List.foldl_cons]
    have hstep : worstStep cm pm (a, o) t =
        if a < combAt cm pm t then (combAt cm pm t, some t) else (a, o) := rfl
    by_cases h : a < combAt cm pm t
    · rw [hstep, if_pos h]
      obtain ⟨h1, h2, h3⟩ := ih (combAt cm pm t) (some t)
      refine ⟨?_, le_trans (le_of_lt h) h2, ?_⟩
      · intro u hu
        rcases List.mem_cons.mp hu with hu | hu
        · rw [hu]
          exact h2
        · exact h1 u hu
      · rcases h3 with ⟨hr1, hr2⟩ | ⟨u, hu, hr1, hr2, hlt⟩
        · exact Or.inr ⟨t, List.mem_cons_self t rest, hr1, hr2, h⟩
        · exact Or.inr ⟨u, List.mem_cons_of_mem t hu, hr1, hr2, lt_trans h hlt⟩
    · rw [hstep, if_neg h]
      obtain ⟨h1, h2, h3⟩ := ih a o
      refine ⟨?_, h2, ?_⟩
      · intro u hu
        rcases List.mem_cons.mp hu with hu | hu
        · rw [hu]
          exact le_trans (le_of_not_lt h) h2
        · exact h1 u hu
      · rcases h3 with h3 | ⟨u, hu, hr⟩
        · exact Or.inl h3
        · exact Or.inr ⟨u, List.mem_cons_of_mem t hu, hr⟩

/-- Evaluation of the peak finder over two successful, non-empty,
well-formed candle fetches. -/
theorem get_intraday_eq (cs ps : List (ℕ × ℚ)) (sl hcl : ℚ)
    (hnzc : ∀ x ∈ cs, x.1 ≠ 0) (hnzp : ∀ y ∈ ps, y.1 ≠ 0)
    (hndc : (cs.map Prod.fst).Nodup) (hndp : (ps.map Prod.fst).Nodup)
    (hc : cs ≠ []) (hp : ps ≠ []) :
    get_intraday_worst_combined (some cs) (some ps) sl hcl =
      if (commonTs cs ps).isEmpty then none
      else
        some { worst_combined := ((commonTs cs ps).foldl (worstStep cs ps) (0, none)).1
               worst_ts := ((commonTs cs ps).foldl (worstStep cs ps) (0, none)).2
               candle_count := (commonTs cs ps).length
               sl_breached :=
                 decide (sl ≤ ((commonTs cs ps).foldl (worstStep cs ps) (0, none)).1)
               hard_cap_breached :=
                 decide (hcl ≤ ((commonTs cs ps).foldl (worstStep cs ps) (0, none)).1) } := by
  have hce : cs.isEmpty = false := by
    cases cs with
    | nil => exact absurd rfl hc
    | cons a l => rfl
  have hpe : ps.isEmpty = false := by
    cases ps with
    | nil => exact absurd rfl hp
    | cons a l => rfl
  unfold get_intraday_worst_combined fetchCandleDict
  dsimp only
  rw [hce, hpe]
  simp only [Bool.false_eq_true, if_false]
  rw [buildCandleDict_eq_self cs hnzc hndc, buildCandleDict_eq_self ps hnzp hndp]
  rw [hce, hpe]
  simp only [Bool.or_self, Bool.false_eq_true, if_false]

theorem shared_ts_iff (cs ps : List (ℕ × ℚ)) :
    (∃ x ∈ cs, ∃ y ∈ ps, x.1 = y.1) ↔
      ∃ t, t ∈ cs.map Prod.fst ∧ t ∈ ps.map Prod.fst := by
  constructor
  · rintro ⟨x, hx, y, hy, hxy⟩
    exact ⟨x.1, List.mem_map_of_mem Prod.fst hx,
      hxy ▸ List.mem_map_of_mem Prod.fst hy⟩
  · rintro ⟨t, htc, htp⟩
    obtain ⟨x, hx, hfx⟩ := List.mem_map.mp htc
    obtain ⟨y, hy, hfy⟩ := List.mem_map.mp htp
    exact ⟨x, hx, y, hy, by rw [hfx, hfy]⟩

/-- C5 (amended): the intraday peak finder returns `none` exactly when a
leg's candle fetch fails, a leg has no candles, or the two timestamp sets
do not overlap; otherwise, over well-formed candle data (positive
timestamps, one candle per minute, non-negative closes), it returns the
maximum combined close over the shared minutes, the count of shared
minutes, the breach flags for that maximum — and the peak's minute
timestamp whenever the maximum is strictly positive (a peak of exactly
zero is reported without a timestamp). -/
theorem c5_peak_finder_amended (sl hcl : ℚ) :
    (∀ pf, get_intraday_worst_combined none pf sl hcl = none) ∧
    (∀ cf, get_intraday_worst_combined cf none sl hcl = none) ∧
    (∀ pf, get_intraday_worst_combined (some []) pf sl hcl = none) ∧
    (∀ cf, get_intraday_worst_combined cf (some []) sl hcl = none) ∧
    (∀ cs ps : List (ℕ × ℚ),
      (∀ x ∈ cs, x.1 ≠ 0) → (∀ y ∈ ps, y.1 ≠ 0) →
      (cs.map Prod.fst).Nodup → (ps.map Prod.fst).Nodup →
      (∀ x ∈ cs, 0 ≤ x.2) → (∀ y ∈ ps, 0 ≤ y.2) →
      ((get_intraday_worst_combined (some cs) (some ps) sl hcl = none ↔
        cs = [] ∨ ps = [] ∨ ¬ ∃ x ∈ cs, ∃ y ∈ ps, x.1 = y.1) ∧
      (∀ r, get_intraday_worst_combined (some cs) (some ps) sl hcl = some r →
        r.candle_count =
          ((cs.map Prod.fst).filter (fun a => decide (a ∈ ps.map Prod.fst))).length ∧
        (∀ x ∈ cs, ∀ y ∈ ps, x.1 = y.1 → x.2 + y.2 ≤ r.worst_combined) ∧
        (∃ x ∈ cs, ∃ y ∈ ps, x.1 = y.1 ∧ r.worst_combined = x.2 + y.2) ∧
        (0 < r.worst_combined →
          ∃ t, r.worst_ts = some t ∧ ∃ x ∈ cs, ∃ y ∈ ps, x.1 = t ∧ y.1 = t ∧
            x.2 + y.2 = r.worst_combined) ∧
        r.sl_breached = decide (sl ≤ r.worst_combined) ∧
        r.hard_cap_breached = decide (hcl ≤ r.worst_combined)))) := by
  have hnil : ∀ l : List ℕ, l.isEmpty = true ↔ l = [] := by
    intro l
    cases l <;> simp
  refine ⟨fun pf => rfl, ?_, fun pf => rfl, ?_, ?_⟩
  · intro cf
    unfold get_intraday_worst_combined
    cases fetchCandleDict cf <;> rfl
  · intro cf
    unfold get_intraday_worst_combined
    have hfd : fetchCandleDict (some []) = none := rfl
    rw [hfd]
    cases fetchCandleDict cf <;> rfl
  · intro cs ps hnzc hnzp hndc hndp hnnc hnnp
    by_cases hc0 : cs = []
    · subst hc0
      refine ⟨⟨fun _ => Or.inl rfl, fun _ => rfl⟩, ?_⟩
      intro r hr
      exact Option.noConfusion hr
    by_cases hp0 : ps = []
    · subst hp0
      have hnone : get_intraday_worst_combined (some cs) (some []) sl hcl = none := by
        unfold get_intraday_worst_combined
        have hfd : fetchCandleDict (some []) = none := rfl
        rw [hfd]
        cases fetchCandleDict (some cs) <;> rfl
      refine ⟨⟨fun _ => Or.inr (Or.inl rfl), fun _ => hnone⟩, ?_⟩
      intro r hr
      rw [hnone] at hr
      exact absurd hr (by simp)
    have hEq := get_intraday_eq cs ps sl hcl hnzc hnzp hndc hndp hc0 hp0
    have hlookc : ∀ x ∈ cs, lookupTs cs x.1 = some x.2 := by
      intro x hx
      exact (lookupTs_eq_some_iff cs hndc x.1 x.2).mpr hx
    have hlookp : ∀ y ∈ ps, lookupTs ps y.1 = some y.2 := by
      intro y hy
      exact (lookupTs_eq_some_iff ps hndp y.1 y.2).mpr hy
    have hsharedMem : ∀ t, t ∈ commonTs cs ps ↔
        t ∈ cs.map Prod.fst ∧ t ∈ ps.map Prod.fst := mem_commonTs cs ps
    have hcomb : ∀ x ∈ cs, ∀ y ∈ ps, x.1 = y.1 → combAt cs ps x.1 = x.2 + y.2 := by
      intro x hx y hy hxy
      unfold combAt
      rw [hlookc x hx, hxy, hlookp y hy]
      rfl
    have hdecomp : ∀ t ∈ commonTs cs ps,
        ∃ x ∈ cs, ∃ y ∈ ps, x.1 = t ∧ y.1 = t := by
      intro t ht
      obtain ⟨htc, htp⟩ := (hsharedMem t).mp ht
      obtain ⟨x, hx, hfx⟩ := List.mem_map.mp htc
      obtain ⟨y, hy, hfy⟩ := List.mem_map.mp htp
      exact ⟨x, hx, y, hy, hfx, hfy⟩
    constructor
    · rw [hEq]
      by_cases hcom : (commonTs cs ps).isEmpty = true
      · rw [if_pos hcom]
        simp only [true_iff]
        refine Or.inr (Or.inr ?_)
        rw [shared_ts_iff]
        rintro ⟨t, htc, htp⟩
        have : t ∈ commonTs cs ps := (hsharedMem t).mpr ⟨htc, htp⟩
        rw [(hnil _).mp hcom] at this
        exact absurd this (by simp)
      · rw [if_neg hcom]
        constructor
        · intro h
          exact absurd h (by simp)
        · intro h
          rcases h with h | h | h
          · exact absurd h hc0
          · exact absurd h hp0
          · exfalso
            apply h
            rw [shared_ts_iff]
            have hne : commonTs cs ps ≠ [] := fun he => hcom ((hnil _).mpr he)
            obtain ⟨t, ht⟩ := List.exists_mem_of_ne_nil _ hne
            exact ⟨t, (hsharedMem t).mp ht⟩
    · intro r hr
      rw [hEq] at hr
      by_cases hcom : (commonTs cs ps).isEmpty = true
      · rw [if_pos hcom] at hr
        exact absurd hr (by simp)
      · rw [if_neg hcom] at hr
        have hrv := (Option.some.inj hr).symm
        obtain ⟨h1, h2, h3⟩ := worstFold_spec cs ps (commonTs cs ps) 0 none
        have hwc : r.worst_combined =
            ((commonTs cs ps).foldl (worstStep cs ps) (0, none)).1 := by
          rw [hrv]
        have hwt : r.worst_ts =
            ((commonTs cs ps).foldl (worstStep cs ps) (0, none)).2 := by
          rw [hrv]
        have hne : commonTs cs ps ≠ [] := fun he => hcom ((hnil _).mpr he)
        refine ⟨?_, ?_, ?_, ?_, by rw [hrv], by rw [hrv]⟩
        · rw [hrv]
          exact commonTs_length cs ps hndc
        · intro x hx y hy hxy
          rw [hwc, ← hcomb x hx y hy hxy]
          apply h1
          refine (hsharedMem x.1).mpr ⟨List.mem_map_of_mem Prod.fst hx, ?_⟩
          rw [hxy]
          exact List.mem_map_of_mem Prod.fst hy
        · rcases h3 with ⟨hz, _⟩ | ⟨t, ht, hv, _, _⟩
          · obtain ⟨t, ht⟩ := List.exists_mem_of_ne_nil _ hne
            obtain ⟨x, hx, y, hy, hfx, hfy⟩ := hdecomp t ht
            have hxy : x.1 = y.1 := by rw [hfx, hfy]
            have hle : x.2 + y.2 ≤ 0 := by
              rw [← hz, ← hcomb x hx y hy hxy, hfx]
              exact h1 t ht
            have hge : 0 ≤ x.2 + y.2 :=
              add_nonneg (hnnc x hx) (hnnp y hy)
            refine ⟨x, hx, y, hy, hxy, ?_⟩
            rw [hwc, hz]
            exact (le_antisymm hle hge).symm
          · obtain ⟨x, hx, y, hy, hfx, hfy⟩ := hdecomp t ht
            have hxy : x.1 = y.1 := by rw [hfx, hfy]
            refine ⟨x, hx, y, hy, hxy, ?_⟩
            rw [hwc, hv, ← hcomb x hx y hy hxy, hfx]
        · intro hpos
          rcases h3 with ⟨hz, _⟩ | ⟨t, ht, hv, hts, _⟩
          · rw [hwc, hz] at hpos
            exact absurd hpos (by norm_num)
          · obtain ⟨x, hx, y, hy, hfx, hfy⟩ := hdecomp t ht
            have hxy : x.1 = y.1 := by rw [hfx, hfy]
            refine ⟨t, by rw [hwt, hts], x, hx, y, hy, hfx, hfy, ?_⟩
            rw [hwc, hv, ← hcomb x hx y hy hxy, hfx]

/-- C5 counterexample: both fetches succeed and the two candle sets share
minute 1, whose closes are both zero.  The claim (as stated) requires the
result to carry the maximum combined close together with that minute's
timestamp; the code returns the maximum 0 but no timestamp (`worst_ts`
stays `None`, printed as `'?'`), because the scan only records a
timestamp on a strict increase above the initial 0. -/
theorem c5_counterexample :
    get_intraday_worst_combined (some [(1, 0)]) (some [(1, 0)]) 25 300 =
      some { worst_combined := 0, worst_ts := none, candle_count := 1,
             sl_breached := false, hard_cap_breached := false } := by
  norm_num [get_intraday_worst_combined, fetchCandleDict, buildCandleDict, upsert,
    commonTs, dictKeys, lookupTs, worstStep]

theorem c5_peak_finder_amended_witness :
    (get_intraday_worst_combined (some [(1, 2), (2, 5), (3, 1)])
        (some [(1, 3), (2, 1), (3, 1)]) 25 300 =
      some { worst_combined := 6, worst_ts := some 2, candle_count := 3,
             sl_breached := false, hard_cap_breached := false }) ∧
    (∀ x ∈ [((1 : ℕ), (2 : ℚ)), (2, 5), (3, 1)],
      ∀ y ∈ [((1 : ℕ), (3 : ℚ)), (2, 1), (3, 1)], x.1 = y.1 → x.2 + y.2 ≤ 6) := by
  have hval : get_intraday_worst_combined (some [(1, 2), (2, 5), (3, 1)])
      (some [(1, 3), (2, 1), (3, 1)]) 25 300 =
      some { worst_combined := 6, worst_ts := some 2, candle_count := 3,
             sl_breached := false, hard_cap_breached := false } := by
    norm_num [get_intraday_worst_combined, fetchCandleDict, buildCandleDict, upsert,
      commonTs, dictKeys, lookupTs, worstStep]
  have h := ((c5_peak_finder_amended 25 300).2.2.2.2
    [(1, 2), (2, 5), (3, 1)] [(1, 3), (2, 1), (3, 1)]
    (by norm_num) (by norm_num) (by norm_num) (by norm_num)
    (by norm_num) (by norm_num)).2
    { worst_combined := 6, worst_ts := some 2, candle_count := 3,
      sl_breached := false, hard_cap_breached := false } hval
  exact ⟨hval, fun x hx y hy hxy => h.2.1 x hx y hy hxy⟩
